import Mathlib

/-!
gcorelabscloud-go: interface union codec, task results and linked pages.

A shallow embedding of

* `gcore/gpu/v3/clusters/results.go` (`InterfaceUnion` and its JSON codec, `ClusterPage`,
  `ExtractClusters`, `ExtractClusterIDFromTask`),
* `gcore/gpu/v3/clusters/requests.go` (`List`, `ListAll`),
* `gcore/loadbalancer/v1/loadbalancers/results.go` and `gcore/region/v1/regions/results.go`
  (`NextPageURL`, `ExtractLoadBalancerIDFromTask`).

Modelling conventions:

* A byte payload is read as a JSON text: `Payload = Option JSON`, `none` standing for bytes that
  are not well-formed JSON. `json.Marshal` produces a `JSON` value; handing its output to
  `json.Unmarshal` is handing over `some` of that value.
* A JSON object keeps its members in source order, duplicates included, because
  `encoding/json` decodes the members of an object into a struct one after the other.
* A Go string is a byte sequence. A string that a caller can set freely (the string fields of
  the interface shapes) is a `GoString`, which can hold bytes that are not valid UTF-8; a string
  that is a constant of the sources or was decoded from JSON is valid UTF-8 and is a `String`.
* A Go `error` is a value of `Error`; a nil error is `none` / `Except.ok`.
* A Go pointer field is an `Option`; nil is `none`.
-/

namespace Gcore

/-! ## JSON values and the part of `encoding/json` and `fmt` the sources rely on -/

/-- A JSON value. A number is `some t` when its literal parses to a `float64`, `t` being the text
`fmt` prints for that value, and `none` when its literal overflows `float64` (such as `1e400`);
no struct of the sources below has a numeric field. -/
inductive JSON where
  | null
  | bool (b : Bool)
  | num (float64 : Option String)
  | str (s : String)
  | arr (xs : List JSON)
  | obj (kvs : List (String × JSON))
deriving Repr, Inhabited

/-- The bytes given to a decoder: `none` when they are not well-formed JSON. -/
abbrev Payload := Option JSON

/-- Go `error` values. -/
inductive Error where
  /-- The result of `fmt.Errorf` with the given text and no wrapped error. -/
  | errorf (text : String)
  /-- The result of `fmt.Errorf(text + "%w", cause)`: the text is followed by the text of `cause`. -/
  | wrapf (text : String) (cause : Error)
  /-- An error reported by `encoding/json`, or by the codec of a field type through it. Its text
  is not modelled. -/
  | json
  /-- An error reported by a collaborator (the HTTP transport, a decoder of the root package). -/
  | collaborator (text : String)
deriving DecidableEq, Repr, Inhabited

/-- The order of Go strings on texts: bytewise, which on UTF-8 is the order of the code points. -/
def ltChars : List Char → List Char → Bool
  | [], [] => false
  | [], _ :: _ => true
  | _ :: _, [] => false
  | a :: as, b :: bs => decide (a.toNat < b.toNat) || (decide (a.toNat = b.toNat) && ltChars as bs)

/-- Insertion of a key into a key-sorted association list, replacing an equal key: the order
in which `fmt` prints a Go map, whose keys are unique. -/
def goMapInsert (k : String) (v : String) : List (String × String) → List (String × String)
  | [] => [(k, v)]
  | (k', v') :: rest =>
    if ltChars k.data k'.data then (k, v) :: (k', v') :: rest
    else if k = k' then (k, v) :: rest
    else (k', v') :: goMapInsert k v rest

/-- The members of an object as `fmt` meets them in a Go map: unique keys (the last duplicate
wins), sorted. -/
def goMapOrder : List (String × String) → List (String × String)
  | [] => []
  | (k, v) :: rest =>
    let m := goMapOrder rest
    if m.any (fun p => p.1 = k) then m else goMapInsert k v m

mutual
/-- The text `fmt` produces, under the verb `%s`, for a value nested in a slice or map that
`encoding/json` decoded into an `interface{}`: a string prints as itself, a nil interface as
`<nil>`, a bool or number as a bad-verb notice. A number that overflows `float64` is stored by
`encoding/json` as a nil interface. -/
def goFmtSElem : JSON → String
  | .null => "<nil>"
  | .bool b => "%!s(bool=" ++ (if b then "true" else "false") ++ ")"
  | .num (some t) => "%!s(float64=" ++ t ++ ")"
  | .num none => "<nil>"
  | .str s => s
  | .arr xs => "[" ++ " ".intercalate (goFmtSList xs) ++ "]"
  | .obj kvs =>
    "map[" ++ " ".intercalate ((goMapOrder (goFmtSMembers kvs)).map (fun p => p.1 ++ ":" ++ p.2))
      ++ "]"
/-- The elements of a slice under `%s`. -/
def goFmtSList : List JSON → List String
  | [] => []
  | x :: xs => goFmtSElem x :: goFmtSList xs
/-- The members of a map under `%s`. -/
def goFmtSMembers : List (String × JSON) → List (String × String)
  | [] => []
  | (k, v) :: rest => (k, goFmtSElem v) :: goFmtSMembers rest
end

/-- The text `fmt` produces for the verb `%s` applied to a value that `encoding/json` decoded
into an `interface{}`: as for a nested value, but a nil interface that is the operand itself
prints as the bad-verb notice `%!s(<nil>)`. -/
def goFmtS : JSON → String
  | .null => "%!s(<nil>)"
  | .num none => "%!s(<nil>)"
  | j => goFmtSElem j

mutual
/-- Whether every number of a JSON value fits `float64`. -/
def JSON.fitsFloat64 : JSON → Bool
  | .num none => false
  | .arr xs => fitsFloat64List xs
  | .obj kvs => fitsFloat64Members kvs
  | _ => true
/-- Whether every number of the elements of an array fits `float64`. -/
def fitsFloat64List : List JSON → Bool
  | [] => true
  | x :: xs => x.fitsFloat64 && fitsFloat64List xs
/-- Whether every number of the members of an object fits `float64`. -/
def fitsFloat64Members : List (String × JSON) → Bool
  | [] => true
  | (_, v) :: rest => v.fitsFloat64 && fitsFloat64Members rest
end

/-- The index expression `raw[key]` on the `map[string]interface{}` that `encoding/json` builds
from an object: the value of the last member with that exact key. -/
def mapIndex : List (String × JSON) → String → Option JSON
  | [], _ => none
  | (k, v) :: rest, key =>
    match mapIndex rest key with
    | some w => some w
    | none => if k = key then some v else none

/-- Go's `json.Unmarshal(data, &raw)` with `raw` a nil `map[string]interface{}`: `null` leaves
the map nil, an object fills it, anything else is an error; and so is an object holding, at any
depth, a number that overflows `float64`, which cannot be stored in an `interface{}`. -/
def unmarshalMap : Payload → Except Error (List (String × JSON))
  | none => .error .json
  | some .null => .ok []
  | some (.obj kvs) => if fitsFloat64Members kvs then .ok kvs else .error .json
  | some _ => .error .json

/-- The body of a page read as a map. The body is a value the transport has already decoded, so
no number of it is checked again: `null` is the nil map, an object its members, anything else
an error. -/
def bodyMap : JSON → Except Error (List (String × JSON))
  | .null => .ok []
  | .obj kvs => .ok kvs
  | _ => .error .json

/-- Go's comparison `interfaceType == t` of an `interface{}` with a string: true exactly when
the dynamic value is that string. -/
def JSON.eqString : JSON → String → Bool
  | .str s, t => s = t
  | _, _ => false

/-- One piece of a Go string as `utf8.DecodeRune` reads it: a character, for a well-formed
UTF-8 encoding, or a single byte that is not part of one. -/
inductive GoUnit where
  | rune (c : Char)
  | byte (b : Nat)
deriving DecidableEq, Repr

/-- A Go string that may hold invalid UTF-8: the byte sequence, kept as the pieces
`utf8.DecodeRune` reads from it in order. -/
structure GoString where
  units : List GoUnit
deriving DecidableEq, Repr

/-- The Go string with the UTF-8 encoding of a text. -/
def GoString.ofString (s : String) : GoString := ⟨s.data.map .rune⟩

instance : Coe String GoString := ⟨GoString.ofString⟩

/-- Whether a Go string is valid UTF-8. -/
def GoString.validUTF8 (s : GoString) : Bool :=
  s.units.all (fun u => match u with | .rune _ => true | .byte _ => false)

/-- The character `json.Marshal` writes for one piece of a Go string: the character itself, or
the replacement character U+FFFD for a byte of an invalid encoding. -/
def GoUnit.jsonRune : GoUnit → Char
  | .rune c => c
  | .byte _ => Char.ofNat 0xFFFD

/-- The JSON string `json.Marshal` writes for a Go string: invalid UTF-8 is coerced to the
replacement character. -/
def GoString.jsonText (s : GoString) : String := ⟨s.units.map GoUnit.jsonRune⟩

/-- Case folding of one rune as `encoding/json` applies it to object keys. Only the runes that
fold to an ASCII letter matter for the ASCII field names below: the lower-case letters, the
Kelvin sign and the long s. -/
def foldRune (c : Char) : Char :=
  if c = Char.ofNat 0x212A then 'K'
  else if c = Char.ofNat 0x17F then 'S'
  else c.toUpper

/-- Folded form of a key. -/
def foldName (s : String) : String := ⟨s.data.map foldRune⟩

/-- Whether an object key selects the struct field with JSON name `name`: `encoding/json`
prefers an exact match and falls back on a case-insensitive one; the field names of one struct
below are pairwise different after folding, so the two steps select the same field. -/
def fieldMatch (key name : String) : Bool := foldName key = foldName name

/-- Decoding a JSON value into a Go `string` field holding `cur`. -/
def decodeString (cur : String) : JSON → Except Error String
  | .str s => .ok s
  | .null => .ok cur
  | _ => .error .json

/-- Decoding a JSON value into a Go `string` field holding `cur`, for a field that can hold any
bytes. -/
def decodeGoString (cur : GoString) : JSON → Except Error GoString
  | .str s => .ok (GoString.ofString s)
  | .null => .ok cur
  | _ => .error .json

/-- Decoding a JSON value into a Go `*string` field. -/
def decodeStringPtr : JSON → Except Error (Option GoString)
  | .str s => .ok (some (GoString.ofString s))
  | .null => .ok none
  | _ => .error .json

/-- Decoding the members of an object into a struct, one after the other, with `setField`
decoding one member into the struct built so far. -/
def decodeMembers {T : Type} (setField : T → String → JSON → Except Error T) :
    List (String × JSON) → T → Except Error T
  | [], s => .ok s
  | (k, v) :: rest, s =>
    match setField s k v with
    | .error e => .error e
    | .ok s' => decodeMembers setField rest s'

/-- Go's `json.Unmarshal(data, &s)` for a struct `s`: `null` leaves it as it is, an object is
decoded member by member, anything else is an error. -/
def unmarshalStruct {T : Type} (setField : T → String → JSON → Except Error T)
    (data : Payload) (s : T) : Except Error T :=
  match data with
  | none => .error .json
  | some .null => .ok s
  | some (.obj kvs) => decodeMembers setField kvs s
  | some _ => .error .json

/-- Encoding of a Go `*string` field. -/
def marshalStringPtr : Option GoString → JSON
  | none => .null
  | some s => .str s.jsonText

/-! ## `gcore/gpu/v3/clusters/results.go`: the interface shapes -/

/-- The JSON codec of `IPFamilyType`, a type of package `clusters` declared outside the files
at hand: its zero value, its encoding (which may fail) and its decoding of a JSON value into a
field holding a current value (which may fail). -/
structure IPFamilyCodec (F : Type) where
  zero : F
  marshal : F → Option JSON
  unmarshal : F → JSON → Option F

/-- The codec `encoding/json` gives a type declared as `type IPFamilyType string` without
codec methods of its own. -/
def stringIPFamily : IPFamilyCodec GoString where
  zero := ⟨[]⟩
  marshal := fun s => some (.str s.jsonText)
  unmarshal := fun cur j =>
    match decodeGoString cur j with
    | .ok s => some s
    | .error _ => none

/-- `type ExternalInterface struct`; `Type_` is the field `Type`, `F` the type `IPFamilyType`. -/
structure ExternalInterface (F : Type) where
  Name : Option GoString
  Type_ : GoString
  IPFamily : F
deriving DecidableEq, Repr

/-- `type FloatingIP struct`. -/
structure FloatingIP where
  Source : GoString
deriving DecidableEq, Repr

/-- `type SubnetInterface struct`. -/
structure SubnetInterface where
  NetworkID : GoString
  Name : Option GoString
  Type_ : GoString
  SubnetID : GoString
  FloatingIP : Option FloatingIP
deriving DecidableEq, Repr

/-- `type AnySubnetInterface struct`. -/
structure AnySubnetInterface (F : Type) where
  NetworkID : GoString
  Name : Option GoString
  Type_ : GoString
  IPFamily : F
  IPAddress : Option GoString
  FloatingIP : Option FloatingIP
deriving DecidableEq, Repr

/-- `type InterfaceUnion struct`: one pointer field per shape. -/
structure InterfaceUnion (F : Type) where
  ExternalInterface : Option (ExternalInterface F)
  SubnetInterface : Option SubnetInterface
  AnySubnetInterface : Option (AnySubnetInterface F)
deriving DecidableEq, Repr

/-- The zero value `var iface ExternalInterface`. -/
def zeroExternalInterface {F : Type} (c : IPFamilyCodec F) : ExternalInterface F :=
  ⟨none, ⟨[]⟩, c.zero⟩

/-- The zero value `var iface SubnetInterface`. -/
def zeroSubnetInterface : SubnetInterface := ⟨⟨[]⟩, none, ⟨[]⟩, ⟨[]⟩, none⟩

/-- The zero value `var iface AnySubnetInterface`. -/
def zeroAnySubnetInterface {F : Type} (c : IPFamilyCodec F) : AnySubnetInterface F :=
  ⟨⟨[]⟩, none, ⟨[]⟩, c.zero, none, none⟩

/-- Decoding into a field of type `IPFamilyType`. -/
def decodeIPFamily {F : Type} (c : IPFamilyCodec F) (cur : F) (v : JSON) : Except Error F :=
  match c.unmarshal cur v with
  | some f => .ok f
  | none => .error .json

/-- One member of an object decoded into a `FloatingIP`. -/
def setFieldFloatingIP (s : FloatingIP) (key : String) (v : JSON) : Except Error FloatingIP :=
  if fieldMatch key "source" then
    match decodeGoString s.Source v with
    | .ok x => .ok { s with Source := x }
    | .error e => .error e
  else .ok s

/-- Decoding a JSON value into a `*FloatingIP` field holding `cur`: `null` sets nil, an object
is decoded into the pointed-to struct (a fresh zero struct when the pointer is nil). -/
def decodeFloatingIPPtr (cur : Option FloatingIP) : JSON → Except Error (Option FloatingIP)
  | .null => .ok none
  | .obj kvs =>
    match decodeMembers setFieldFloatingIP kvs (cur.getD ⟨⟨[]⟩⟩) with
    | .ok f => .ok (some f)
    | .error e => .error e
  | _ => .error .json

/-- One member of an object decoded into an `ExternalInterface` (tags `name`, `type`,
`ip_family`); a key that selects no field is skipped. -/
def setFieldExternalInterface {F : Type} (c : IPFamilyCodec F) (s : ExternalInterface F)
    (key : String) (v : JSON) : Except Error (ExternalInterface F) :=
  if fieldMatch key "name" then
    match decodeStringPtr v with
    | .ok x => .ok { s with Name := x }
    | .error e => .error e
  else if fieldMatch key "type" then
    match decodeGoString s.Type_ v with
    | .ok x => .ok { s with Type_ := x }
    | .error e => .error e
  else if fieldMatch key "ip_family" then
    match decodeIPFamily c s.IPFamily v with
    | .ok x => .ok { s with IPFamily := x }
    | .error e => .error e
  else .ok s

/-- One member of an object decoded into a `SubnetInterface` (tags `network_id`, `name`,
`type`, `subnet_id`, `floating_ip`). -/
def setFieldSubnetInterface (s : SubnetInterface) (key : String) (v : JSON) :
    Except Error SubnetInterface :=
  if fieldMatch key "network_id" then
    match decodeGoString s.NetworkID v with
    | .ok x => .ok { s with NetworkID := x }
    | .error e => .error e
  else if fieldMatch key "name" then
    match decodeStringPtr v with
    | .ok x => .ok { s with Name := x }
    | .error e => .error e
  else if fieldMatch key "type" then
    match decodeGoString s.Type_ v with
    | .ok x => .ok { s with Type_ := x }
    | .error e => .error e
  else if fieldMatch key "subnet_id" then
    match decodeGoString s.SubnetID v with
    | .ok x => .ok { s with SubnetID := x }
    | .error e => .error e
  else if fieldMatch key "floating_ip" then
    match decodeFloatingIPPtr s.FloatingIP v with
    | .ok x => .ok { s with FloatingIP := x }
    | .error e => .error e
  else .ok s

/-- One member of an object decoded into an `AnySubnetInterface` (tags `network_id`, `name`,
`type`, `ip_family`, `ip_address`, `floating_ip`). -/
def setFieldAnySubnetInterface {F : Type} (c : IPFamilyCodec F) (s : AnySubnetInterface F)
    (key : String) (v : JSON) : Except Error (AnySubnetInterface F) :=
  if fieldMatch key "network_id" then
    match decodeGoString s.NetworkID v with
    | .ok x => .ok { s with NetworkID := x }
    | .error e => .error e
  else if fieldMatch key "name" then
    match decodeStringPtr v with
    | .ok x => .ok { s with Name := x }
    | .error e => .error e
  else if fieldMatch key "type" then
    match decodeGoString s.Type_ v with
    | .ok x => .ok { s with Type_ := x }
    | .error e => .error e
  else if fieldMatch key "ip_family" then
    match decodeIPFamily c s.IPFamily v with
    | .ok x => .ok { s with IPFamily := x }
    | .error e => .error e
  else if fieldMatch key "ip_address" then
    match decodeStringPtr v with
    | .ok x => .ok { s with IPAddress := x }
    | .error e => .error e
  else if fieldMatch key "floating_ip" then
    match decodeFloatingIPPtr s.FloatingIP v with
    | .ok x => .ok { s with FloatingIP := x }
    | .error e => .error e
  else .ok s

/-- Encoding of a `*FloatingIP` field. -/
def marshalFloatingIPPtr : Option FloatingIP → JSON
  | none => .null
  | some f => .obj [("source", .str f.Source.jsonText)]

/-- Go's `json.Marshal` of an `*ExternalInterface`: every field, in declaration order, under
its tag (no tag has `omitempty`); a string is written with its invalid UTF-8 coerced to the
replacement character. -/
def marshalExternalInterface {F : Type} (c : IPFamilyCodec F) (s : ExternalInterface F) :
    Except Error JSON :=
  match c.marshal s.IPFamily with
  | none => .error .json
  | some ip =>
    .ok (.obj [("name", marshalStringPtr s.Name), ("type", .str s.Type_.jsonText), ("ip_family", ip)])

/-- Go's `json.Marshal` of a `*SubnetInterface`. -/
def marshalSubnetInterface (s : SubnetInterface) : Except Error JSON :=
  .ok (.obj [("network_id", .str s.NetworkID.jsonText), ("name", marshalStringPtr s.Name),
    ("type", .str s.Type_.jsonText), ("subnet_id", .str s.SubnetID.jsonText),
    ("floating_ip", marshalFloatingIPPtr s.FloatingIP)])

/-- Go's `json.Marshal` of an `*AnySubnetInterface`. -/
def marshalAnySubnetInterface {F : Type} (c : IPFamilyCodec F) (s : AnySubnetInterface F) :
    Except Error JSON :=
  match c.marshal s.IPFamily with
  | none => .error .json
  | some ip =>
    .ok (.obj [("network_id", .str s.NetworkID.jsonText), ("name", marshalStringPtr s.Name),
      ("type", .str s.Type_.jsonText), ("ip_family", ip), ("ip_address", marshalStringPtr s.IPAddress),
      ("floating_ip", marshalFloatingIPPtr s.FloatingIP)])

/-! ## `InterfaceUnion` -/

/-- The envelope with no shape populated. -/
def emptyInterfaceUnion {F : Type} : InterfaceUnion F := ⟨none, none, none⟩

/-- `func (i *InterfaceUnion) InterfaceType() string`. -/
def InterfaceUnion.InterfaceType {F : Type} (i : InterfaceUnion F) : GoString :=
  match i.ExternalInterface with
  | some e => e.Type_
  | none =>
    match i.SubnetInterface with
    | some s => s.Type_
    | none =>
      match i.AnySubnetInterface with
      | some a => a.Type_
      | none => ⟨[]⟩

/-- The slice `allTypes` of `ExtractInterfaceType`. -/
def allTypes : List String := ["external", "subnet", "any_subnet"]

/-- `func (i *InterfaceUnion) ExtractInterfaceType(data []byte) (string, error)`; the receiver
is not used by the body. -/
def InterfaceUnion.ExtractInterfaceType (data : Payload) : Except Error String :=
  match unmarshalMap data with
  | .error err => .error err
  | .ok raw =>
    match mapIndex raw "type" with
    | none => .error (.errorf "interface type not specified, unable to unmarshal interface")
    | some interfaceType =>
      match allTypes.find? (fun t => interfaceType.eqString t) with
      | some t => .ok t
      | none => .error (.errorf ("invalid interface type: " ++ goFmtS interfaceType))

/-- `func (i *InterfaceUnion) MarshalJSON() ([]byte, error)`. -/
def InterfaceUnion.MarshalJSON {F : Type} (c : IPFamilyCodec F) (i : InterfaceUnion F) :
    Except Error JSON :=
  match i.ExternalInterface with
  | some e => marshalExternalInterface c e
  | none =>
    match i.SubnetInterface with
    | some s => marshalSubnetInterface s
    | none =>
      match i.AnySubnetInterface with
      | some a => marshalAnySubnetInterface c a
      | none => .error (.errorf "no valid interface type")

/-- `func (i *InterfaceUnion) UnmarshalJSON(data []byte) error`: the envelope after the call
and the error returned. -/
def InterfaceUnion.UnmarshalJSON {F : Type} (c : IPFamilyCodec F) (i : InterfaceUnion F)
    (data : Payload) : InterfaceUnion F × Option Error :=
  match InterfaceUnion.ExtractInterfaceType data with
  | .error err => (i, some err)
  | .ok interfaceType =>
    if interfaceType = "external" then
      match unmarshalStruct (setFieldExternalInterface c) data (zeroExternalInterface c) with
      | .error err => (i, some err)
      | .ok iface => ({ i with ExternalInterface := some iface }, none)
    else if interfaceType = "subnet" then
      match unmarshalStruct setFieldSubnetInterface data zeroSubnetInterface with
      | .error err => (i, some err)
      | .ok iface => ({ i with SubnetInterface := some iface }, none)
    else if interfaceType = "any_subnet" then
      match unmarshalStruct (setFieldAnySubnetInterface c) data (zeroAnySubnetInterface c) with
      | .error err => (i, some err)
      | .ok iface => ({ i with AnySubnetInterface := some iface }, none)
    else (i, some (.errorf ("no valid interface type: " ++ interfaceType)))

/-! ## Task results: `ExtractClusterIDFromTask` and `ExtractLoadBalancerIDFromTask` -/

/-- Modelled from the spec: `tasks.Task` of package `gcore/task/v1/tasks`, of which only the
created-resources mapping matters here: a mapping from a resource-type key to a JSON value,
nil when the task created nothing. -/
structure Task where
  CreatedResources : Option (List (String × JSON))
deriving Repr

/-- `type ClusterTaskResult struct`, field tag `ai_clusters`. -/
structure ClusterTaskResult where
  AIClusters : List String
deriving DecidableEq, Repr

/-- `type LoadBalancerTaskResult struct`, field tag `loadbalancers`. -/
structure LoadBalancerTaskResult where
  LoadBalancers : List String
deriving DecidableEq, Repr

/-- Decoding of an identifier: the elements of the array under a resource key are strings. -/
def decodeIdentifiers : List JSON → Except Error (List String)
  | [] => .ok []
  | .str s :: rest =>
    match decodeIdentifiers rest with
    | .ok ids => .ok (s :: ids)
    | .error e => .error e
  | _ :: _ => .error (.collaborator "expected an identifier")

/-- Modelled from the spec: `gcorecloud.NativeMapToStruct` of the root package, applied to a
result struct with one identifier-list field under `key`: an absent key (or a nil mapping, or a
`null` value) leaves the field nil, an array of strings fills it, anything else is a decode
error. -/
def NativeMapToStruct (key : String) (createdResources : Option (List (String × JSON))) :
    Except Error (List String) :=
  match createdResources with
  | none => .ok []
  | some m =>
    match mapIndex m key with
    | none => .ok []
    | some .null => .ok []
    | some (.arr xs) => decodeIdentifiers xs
    | some _ => .error (.collaborator "expected a list of identifiers")

/-- `func ExtractClusterIDFromTask(task *tasks.Task) (string, error)`, with
`gcorecloud.NativeMapToStruct(task.CreatedResources, &result)` taken as the parameter
`nativeMapToStruct`. -/
def ExtractClusterIDFromTask
    (nativeMapToStruct : Option (List (String × JSON)) → Except Error ClusterTaskResult)
    (task : Task) : String × Option Error :=
  match nativeMapToStruct task.CreatedResources with
  | .error err =>
    ("", some (.wrapf "cannot decode GPU cluster information in task structure: " err))
  | .ok result =>
    match result.AIClusters with
    | [] => ("", some (.errorf "cannot decode GPU cluster information in task structure: empty list"))
    | id :: _ => (id, none)

/-- `func ExtractLoadBalancerIDFromTask(task *tasks.Task) (string, error)`. In the branch of the
empty list the source formats the nil `err` with `%w`, which `fmt` prints as a bad-verb
notice. -/
def ExtractLoadBalancerIDFromTask
    (nativeMapToStruct : Option (List (String × JSON)) → Except Error LoadBalancerTaskResult)
    (task : Task) : String × Option Error :=
  match nativeMapToStruct task.CreatedResources with
  | .error err =>
    ("", some (.wrapf "cannot decode loadbalancer information in task structure: " err))
  | .ok result =>
    match result.LoadBalancers with
    | [] =>
      ("", some (.errorf "cannot decode loadbalancer information in task structure: %!w(<nil>)"))
    | id :: _ => (id, none)

/-- The decoder of `ClusterTaskResult` (tag `ai_clusters`) built from `NativeMapToStruct`. -/
def decodeClusterTaskResult (m : Option (List (String × JSON))) :
    Except Error ClusterTaskResult :=
  match NativeMapToStruct "ai_clusters" m with
  | .ok ids => .ok ⟨ids⟩
  | .error e => .error e

/-- The decoder of `LoadBalancerTaskResult` (tag `loadbalancers`) built from
`NativeMapToStruct`. -/
def decodeLoadBalancerTaskResult (m : Option (List (String × JSON))) :
    Except Error LoadBalancerTaskResult :=
  match NativeMapToStruct "loadbalancers" m with
  | .ok ids => .ok ⟨ids⟩
  | .error e => .error e

/-! ## Linked pages -/

/-- Modelled from the spec: `gcorecloud.Link` of the root package, a (relation, target) pair
with wire fields `href` and `rel`. -/
structure Link where
  Href : String
  Rel : String
deriving DecidableEq, Repr

/-- One member of an object decoded into a `Link`. -/
def setFieldLink (s : Link) (key : String) (v : JSON) : Except Error Link :=
  if fieldMatch key "href" then
    match decodeString s.Href v with
    | .ok x => .ok { s with Href := x }
    | .error e => .error e
  else if fieldMatch key "rel" then
    match decodeString s.Rel v with
    | .ok x => .ok { s with Rel := x }
    | .error e => .error e
  else .ok s

/-- Decoding one array element into a `Link`. -/
def decodeLink : JSON → Except Error Link
  | .null => .ok ⟨"", ""⟩
  | .obj kvs => decodeMembers setFieldLink kvs ⟨"", ""⟩
  | _ => .error .json

/-- Decoding the elements of an array, in order, failing with the first failure. -/
def decodeElements {T : Type} (decode : JSON → Except Error T) : List JSON → Except Error (List T)
  | [] => .ok []
  | x :: xs =>
    match decode x with
    | .error e => .error e
    | .ok y =>
      match decodeElements decode xs with
      | .error e => .error e
      | .ok ys => .ok (y :: ys)

/-- Decoding a JSON value into a `[]Link` field. -/
def decodeLinks : JSON → Except Error (List Link)
  | .null => .ok []
  | .arr xs => decodeElements decodeLink xs
  | _ => .error .json

/-- The anonymous struct `struct { Links []gcorecloud.Link }` with tag `links` of
`NextPageURL`. -/
structure LinksBody where
  Links : List Link
deriving DecidableEq, Repr

/-- One member of a page body decoded into the struct of `NextPageURL`. -/
def setFieldLinksBody (s : LinksBody) (key : String) (v : JSON) : Except Error LinksBody :=
  if fieldMatch key "links" then
    match decodeLinks v with
    | .ok x => .ok { s with Links := x }
    | .error e => .error e
  else .ok s

/-- Modelled from the spec: `ExtractInto` of `pagination.LinkedPageBase` (package `pagination`
and the root package), applied to the struct of `NextPageURL`: the page body is decoded as JSON
into the struct, and a body or a `links` field of the wrong JSON type is a decode error. -/
def ExtractInto (body : JSON) (s : LinksBody) : Except Error LinksBody :=
  unmarshalStruct setFieldLinksBody (some body) s

/-- Modelled from the spec: `gcorecloud.ExtractNextURL` of the root package: the target of the
entry with relation `next`, the empty string (no next page) when there is none. The spec does
not say which entry counts when several have that relation; the loop here goes through the
links in order and keeps the target of each such entry, so it ends with the last. -/
def ExtractNextURL (links : List Link) : String × Option Error :=
  (links.foldl (fun url l => if l.Rel = "next" then l.Href else url) "", none)

/-- `ClusterPage`: a `pagination.LinkedPageBase`, of which the decoded JSON body is kept. -/
structure ClusterPage where
  Body : JSON
deriving Repr

/-- `LoadBalancerPage`. -/
structure LoadBalancerPage where
  Body : JSON
deriving Repr

/-- `RegionPage`. -/
structure RegionPage where
  Body : JSON
deriving Repr

/-- `func (r ClusterPage) NextPageURL() (string, error)`. -/
def ClusterPage.NextPageURL (r : ClusterPage) : String × Option Error :=
  match ExtractInto r.Body ⟨[]⟩ with
  | .error err => ("", some err)
  | .ok s => ExtractNextURL s.Links

/-- `func (r LoadBalancerPage) NextPageURL() (string, error)`. -/
def LoadBalancerPage.NextPageURL (r : LoadBalancerPage) : String × Option Error :=
  match ExtractInto r.Body ⟨[]⟩ with
  | .error err => ("", some err)
  | .ok s => ExtractNextURL s.Links

/-- `func (r RegionPage) NextPageURL() (string, error)`. -/
def RegionPage.NextPageURL (r : RegionPage) : String × Option Error :=
  match ExtractInto r.Body ⟨[]⟩ with
  | .error err => ("", some err)
  | .ok s => ExtractNextURL s.Links

/-- Modelled from the spec: `ExtractIntoSlicePtr(v, label)` of `gcorecloud.Result` (root
package): the field `label` of the page body is decoded into an ordered sequence, an absent or
`null` field giving the empty sequence and no error. `decode` decodes one element. What a failed
call leaves in the target is not modelled: the target is then left as it was. -/
def ExtractIntoSlicePtr {T : Type} (decode : JSON → Except Error T) (body : JSON)
    (label : String) : Except Error (List T) :=
  match bodyMap body with
  | .error e => .error e
  | .ok m =>
    match mapIndex m label with
    | none => .ok []
    | some .null => .ok []
    | some (.arr xs) => decodeElements decode xs
    | some _ => .error .json

/-- `func ExtractClustersInto(r pagination.Page, v interface{}) error`, with the decoding of one
`Cluster` taken as the parameter `decodeCluster`: the value of `v` after the call and the
error. -/
def ExtractClustersInto {C : Type} (decodeCluster : JSON → Except Error C) (r : ClusterPage)
    (v : List C) : List C × Option Error :=
  match ExtractIntoSlicePtr decodeCluster r.Body "results" with
  | .error err => (v, some err)
  | .ok s => (s, none)

/-- `func ExtractClusters(r pagination.Page) ([]Cluster, error)`. -/
def ExtractClusters {C : Type} (decodeCluster : JSON → Except Error C) (r : ClusterPage) :
    List C × Option Error :=
  ExtractClustersInto decodeCluster r []

/-- Modelled from the spec: `gcorecloud.ServiceClient` of the root package with its HTTP
transport: the URL of a resource path and the body a GET of a URL returns (or the transport
error). -/
structure ServiceClient where
  ServiceURL : List String → String
  Get : String → Except Error JSON

/-- The constant `clustersPath`. -/
def clustersPath : String := "clusters"

/-- `func ClustersURL(c *gcorecloud.ServiceClient) string`. -/
def ClustersURL (c : ServiceClient) : String := c.ServiceURL [clustersPath]

/-- Modelled from the spec: `pagination.Pager` of package `pagination`: the traversal object
bound to a client, a base URL and the factory that wraps a fetched body as a page. -/
structure Pager where
  client : ServiceClient
  initialURL : String
  createPage : JSON → ClusterPage

/-- The resources of a page as raw JSON values: the extraction of `results` with every element
kept as it is. -/
def pageResources (body : JSON) : Except Error (List JSON) :=
  ExtractIntoSlicePtr (fun j => .ok j) body "results"

/-- Modelled from the spec: the traversal of `Pager.AllPages` from `url` on, `acc` holding the
resources of the pages visited so far: fetch the page, extract and append its resources, ask
the page for the next URL, stop when there is none; a fetch error or a decode error (resources
or links) ends the traversal with that error. `fuel` bounds the number of pages fetched; `none`
is a traversal that did not end within it. -/
def allPagesFrom (p : Pager) : Nat → String → List JSON → Option (Except Error (List JSON))
  | 0, _, _ => none
  | fuel + 1, url, acc =>
    match p.client.Get url with
    | .error err => some (.error err)
    | .ok body =>
      let page := p.createPage body
      match pageResources page.Body with
      | .error err => some (.error err)
      | .ok rs =>
        match page.NextPageURL with
        | (_, some err) => some (.error err)
        | (next, none) =>
          if next = "" then some (.ok (acc ++ rs))
          else allPagesFrom p fuel next (acc ++ rs)

/-- Modelled from the spec: `func (p Pager) AllPages() (Page, error)` of package `pagination`:
one page whose `results` is the concatenation of the resources of every page of the
traversal. -/
def Pager.AllPages (p : Pager) (fuel : Nat) : Option (Except Error ClusterPage) :=
  match allPagesFrom p fuel p.initialURL [] with
  | none => none
  | some (.error err) => some (.error err)
  | some (.ok all) => some (.ok (p.createPage (.obj [("results", .arr all)])))

/-- `func List(client *gcorecloud.ServiceClient) pagination.Pager`. -/
def List_ (client : ServiceClient) : Pager :=
  ⟨client, ClustersURL client, fun r => ⟨r⟩⟩

/-- `func ListAll(client *gcorecloud.ServiceClient) ([]Cluster, error)`; `none` is a traversal
that did not end within `fuel` pages. -/
def ListAll {C : Type} (decodeCluster : JSON → Except Error C) (client : ServiceClient)
    (fuel : Nat) : Option (List C × Option Error) :=
  match (List_ client).AllPages fuel with
  | none => none
  | some (.error err) => some ([], some err)
  | some (.ok pages) =>
    match ExtractClusters decodeCluster pages with
    | (_, some err) => some ([], some err)
    | (all, none) => some (all, none)

/-- The pages with bodies `bodies`, in order, are linked from `url` on: the GET of the current
URL returns the first body; a body that is not the last yields, through `NextPageURL`, the
non-empty URL of the following page; the last body yields no next URL. -/
def LinkedPages (client : ServiceClient) : String → List JSON → Prop
  | _, [] => False
  | url, [b] => client.Get url = .ok b ∧ (ClusterPage.mk b).NextPageURL = ("", none)
  | url, b :: b' :: rest =>
    client.Get url = .ok b ∧ (ClusterPage.mk b).NextPageURL.2 = none ∧
      (ClusterPage.mk b).NextPageURL.1 ≠ "" ∧
      LinkedPages client (ClusterPage.mk b).NextPageURL.1 (b' :: rest)

/-- The traversal from `url` fails with `err` at the page with index `k` (the first page has
index `0`): the pages before it are fetched, their `results` is a list and they yield a
non-empty next URL; at that page either the fetch fails with `err`, or the fetch succeeds and
the decoding of the page fails with `err`: its `results` is not a list, or the decoding of its
links, in `NextPageURL`, fails. -/
def FailsAtPage (client : ServiceClient) : String → Nat → Error → Prop
  | url, 0, err =>
    client.Get url = .error err ∨
      ∃ b, client.Get url = .ok b ∧
        (pageResources b = .error err ∨
          ((∃ rs, pageResources b = .ok rs) ∧ (ClusterPage.mk b).NextPageURL.2 = some err))
  | url, k + 1, err =>
    ∃ b, client.Get url = .ok b ∧ (∃ rs, pageResources b = .ok rs) ∧
      (ClusterPage.mk b).NextPageURL.2 = none ∧ (ClusterPage.mk b).NextPageURL.1 ≠ "" ∧
      FailsAtPage client (ClusterPage.mk b).NextPageURL.1 k err

/-! ## Predicates of the statements -/

/-- The number of populated shapes of an envelope. -/
def InterfaceUnion.populated {F : Type} (i : InterfaceUnion F) : Nat :=
  (if i.ExternalInterface.isSome then 1 else 0) + (if i.SubnetInterface.isSome then 1 else 0) +
    (if i.AnySubnetInterface.isSome then 1 else 0)

/-- A valid envelope: exactly one shape is populated and the `Type` field of that shape is the
tag of the shape. -/
def InterfaceUnion.Valid {F : Type} (i : InterfaceUnion F) : Prop :=
  (∃ e, i = ⟨some e, none, none⟩ ∧ e.Type_ = "external") ∨
  (∃ s, i = ⟨none, some s, none⟩ ∧ s.Type_ = "subnet") ∨
  (∃ a, i = ⟨none, none, some a⟩ ∧ a.Type_ = "any_subnet")

/-- The `IPFamilyType` values an envelope holds. -/
def InterfaceUnion.ipFamilies {F : Type} (i : InterfaceUnion F) : List F :=
  (match i.ExternalInterface with | some e => [e.IPFamily] | none => []) ++
    (match i.AnySubnetInterface with | some a => [a.IPFamily] | none => [])

/-- The codec of `IPFamilyType` encodes `f`, to a JSON value whose numbers fit `float64`, and
decodes the encoding, into a zero field, back to `f`. -/
def IPFamilyCodec.RoundTrips {F : Type} (c : IPFamilyCodec F) (f : F) : Prop :=
  ∃ j, c.marshal f = some j ∧ j.fitsFloat64 = true ∧ c.unmarshal c.zero j = some f

/-- Whether a `*string` field is nil or valid UTF-8. -/
def validStringPtr : Option GoString → Bool
  | none => true
  | some s => s.validUTF8

/-- Whether a `*FloatingIP` field is nil or holds a valid UTF-8 source. -/
def validFloatingIPPtr : Option FloatingIP → Bool
  | none => true
  | some f => f.Source.validUTF8

/-- Whether every string field of the populated shapes of an envelope is valid UTF-8. -/
def InterfaceUnion.stringsValidUTF8 {F : Type} (i : InterfaceUnion F) : Bool :=
  (match i.ExternalInterface with
    | some e => validStringPtr e.Name && e.Type_.validUTF8
    | none => true) &&
  (match i.SubnetInterface with
    | some s =>
      s.NetworkID.validUTF8 && validStringPtr s.Name && s.Type_.validUTF8 &&
        s.SubnetID.validUTF8 && validFloatingIPPtr s.FloatingIP
    | none => true) &&
  (match i.AnySubnetInterface with
    | some a =>
      a.NetworkID.validUTF8 && validStringPtr a.Name && a.Type_.validUTF8 &&
        validStringPtr a.IPAddress && validFloatingIPPtr a.FloatingIP
    | none => true)

/-- The optional (pointer) fields of the shape with tag `t`, by their JSON names. -/
def optionalFields (t : String) : List String :=
  if t = "external" then ["name"]
  else if t = "subnet" then ["name", "floating_ip"]
  else if t = "any_subnet" then ["name", "ip_address", "floating_ip"]
  else []

/-- The field names of a JSON object, in order. -/
def JSON.fieldNames : JSON → List String
  | .obj kvs => kvs.map Prod.fst
  | _ => []

/-- The field names `json.Marshal` writes for the shape with tag `t`. -/
def shapeFields (t : String) : List String :=
  if t = "external" then ["name", "type", "ip_family"]
  else if t = "subnet" then ["network_id", "name", "type", "subnet_id", "floating_ip"]
  else if t = "any_subnet" then
    ["network_id", "name", "type", "ip_family", "ip_address", "floating_ip"]
  else []

/-! ## Example transports -/

/-- The transport of the example of the spec: two pages, the first linking to the second. -/
def exampleClient : ServiceClient where
  ServiceURL := fun _ => "/x"
  Get := fun url =>
    if url = "/x" then
      .ok (.obj [("results", .arr [.obj [("id", .str "a")]]),
        ("links", .arr [.obj [("href", .str "/x?page=2"), ("rel", .str "next")]])])
    else if url = "/x?page=2" then
      .ok (.obj [("results", .arr [.obj [("id", .str "b")]]), ("links", .arr [])])
    else .error (.collaborator "not found")

/-- A resource decoder for the example: a resource is kept by its `id`. -/
def exampleDecode : JSON → Except Error String
  | .obj kvs =>
    match mapIndex kvs "id" with
    | some (.str s) => .ok s
    | _ => .error .json
  | _ => .error .json

/-- A transport whose first page links to a second page that cannot be fetched. -/
def failingClient : ServiceClient where
  ServiceURL := fun _ => "/x"
  Get := fun url =>
    if url = "/x" then
      .ok (.obj [("results", .arr [.obj [("id", .str "a")]]),
        ("links", .arr [.obj [("href", .str "/x?page=2"), ("rel", .str "next")]])])
    else .error (.collaborator "connection reset")

/-! ## `IsEmpty` and the extraction of load balancers and regions -/

/-- `func (r ClusterPage) IsEmpty() (bool, error)`. -/
def ClusterPage.IsEmpty {C : Type} (decodeCluster : JSON → Except Error C) (r : ClusterPage) :
    Bool × Option Error :=
  let res := ExtractClusters decodeCluster r
  (res.1.length == 0, res.2)

/-- `func ExtractLoadBalancersInto(r pagination.Page, v interface{}) error`, with the decoding of
one `LoadBalancer` taken as the parameter `decodeLoadBalancer`: the value of `v` after the call
and the error. -/
def ExtractLoadBalancersInto {L : Type} (decodeLoadBalancer : JSON → Except Error L)
    (r : LoadBalancerPage) (v : List L) : List L × Option Error :=
  match ExtractIntoSlicePtr decodeLoadBalancer r.Body "results" with
  | .error err => (v, some err)
  | .ok s => (s, none)

/-- `func ExtractLoadBalancers(r pagination.Page) ([]LoadBalancer, error)`. -/
def ExtractLoadBalancers {L : Type} (decodeLoadBalancer : JSON → Except Error L)
    (r : LoadBalancerPage) : List L × Option Error :=
  ExtractLoadBalancersInto decodeLoadBalancer r []

/-- `func (r LoadBalancerPage) IsEmpty() (bool, error)`. -/
def LoadBalancerPage.IsEmpty {L : Type} (decodeLoadBalancer : JSON → Except Error L)
    (r : LoadBalancerPage) : Bool × Option Error :=
  let res := ExtractLoadBalancers decodeLoadBalancer r
  (res.1.length == 0, res.2)

/-- `func ExtractRegionsInto(r pagination.Page, v interface{}) error`, with the decoding of one
`Region` taken as the parameter `decodeRegion`. -/
def ExtractRegionsInto {R : Type} (decodeRegion : JSON → Except Error R) (r : RegionPage)
    (v : List R) : List R × Option Error :=
  match ExtractIntoSlicePtr decodeRegion r.Body "results" with
  | .error err => (v, some err)
  | .ok s => (s, none)

/-- `func ExtractRegions(r pagination.Page) ([]Region, error)`. -/
def ExtractRegions {R : Type} (decodeRegion : JSON → Except Error R) (r : RegionPage) :
    List R × Option Error :=
  ExtractRegionsInto decodeRegion r []

/-- `func (r RegionPage) IsEmpty() (bool, error)`. -/
def RegionPage.IsEmpty {R : Type} (decodeRegion : JSON → Except Error R) (r : RegionPage) :
    Bool × Option Error :=
  let res := ExtractRegions decodeRegion r
  (res.1.length == 0, res.2)

/-! ## `gcore/gpu/v3/clusters/requests.go`: option builders and operations

The option structs (`CreateClusterOpts`, `RenameClusterOpts`, `ClusterActionOpts`,
`DeleteClusterOpts`) are handed whole to the reflection helpers of the root package
(`ValidateStruct`, `BuildRequestBody`, `BuildQueryString`), which are not among the files at
hand; no function below reads a field of them. The struct is therefore a type parameter `O` and
the helpers are parameters. A Go `map[string]interface{}` request body is a list of members, nil
being the empty list. -/

/-- `func (opts ClusterActionOpts) Validate() error`. -/
def ClusterActionOpts.Validate {O : Type} (validateStruct : O → Option Error) (opts : O) :
    Option Error :=
  validateStruct opts

/-- `func (opts ClusterActionOpts) ToClusterActionMap() (map[string]interface{}, error)`. -/
def ClusterActionOpts.ToClusterActionMap {O : Type} (validateStruct : O → Option Error)
    (buildRequestBody : O → String → List (String × JSON) × Option Error) (opts : O) :
    List (String × JSON) × Option Error :=
  match ClusterActionOpts.Validate validateStruct opts with
  | some err => ([], some err)
  | none =>
    match buildRequestBody opts "" with
    | (_, some err) => ([], some err)
    | (mp, none) => (mp, none)

/-- `func (opts DeleteClusterOpts) Validate() error`. -/
def DeleteClusterOpts.Validate {O : Type} (validateStruct : O → Option Error) (opts : O) :
    Option Error :=
  validateStruct opts

/-- `func (opts DeleteClusterOpts) ToClusterDeleteQuery() (string, error)`; `buildQueryString`
gives the text of the URL that `gcorecloud.BuildQueryString` returns. The comment above the
function in the source names `ToDeleteClusterActionMap` and a request body; the function builds
a query string, which is what is embedded here. -/
def DeleteClusterOpts.ToClusterDeleteQuery {O : Type} (validateStruct : O → Option Error)
    (buildQueryString : O → String × Option Error) (opts : O) : String × Option Error :=
  match DeleteClusterOpts.Validate validateStruct opts with
  | some err => ("", some err)
  | none =>
    match buildQueryString opts with
    | (_, some err) => ("", some err)
    | (q, none) => (q, none)

/-- `func (opts RenameClusterOpts) Validate() error`. -/
def RenameClusterOpts.Validate {O : Type} (validateStruct : O → Option Error) (opts : O) :
    Option Error :=
  validateStruct opts

/-- `func (opts RenameClusterOpts) ToRenameClusterActionMap() (map[string]interface{}, error)`. -/
def RenameClusterOpts.ToRenameClusterActionMap {O : Type} (validateStruct : O → Option Error)
    (buildRequestBody : O → String → List (String × JSON) × Option Error) (opts : O) :
    List (String × JSON) × Option Error :=
  match RenameClusterOpts.Validate validateStruct opts with
  | some err => ([], some err)
  | none => buildRequestBody opts ""

/-- `func (opts CreateClusterOpts) Validate() error`. -/
def CreateClusterOpts.Validate {O : Type} (validateStruct : O → Option Error) (opts : O) :
    Option Error :=
  validateStruct opts

/-- `func (opts CreateClusterOpts) ToCreateClusterMap() (map[string]interface{}, error)`. -/
def CreateClusterOpts.ToCreateClusterMap {O : Type} (validateStruct : O → Option Error)
    (buildRequestBody : O → String → List (String × JSON) × Option Error) (opts : O) :
    List (String × JSON) × Option Error :=
  match CreateClusterOpts.Validate validateStruct opts with
  | some err => ([], some err)
  | none =>
    match buildRequestBody opts "" with
    | (_, some err) => ([], some err)
    | (mp, none) => (mp, none)

/-- The interface `ClusterActionOptsBuilder`: a value is what its one method returns. -/
structure ClusterActionOptsBuilder where
  ToClusterActionMap : List (String × JSON) × Option Error

/-- The interface `DeleteClusterOptsBuilder`. -/
structure DeleteClusterOptsBuilder where
  ToClusterDeleteQuery : String × Option Error

/-- The interface `RenameClusterOptsBuilder`. -/
structure RenameClusterOptsBuilder where
  ToRenameClusterActionMap : List (String × JSON) × Option Error

/-- The interface `CreateClusterOptsBuilder`. -/
structure CreateClusterOptsBuilder where
  ToCreateClusterMap : List (String × JSON) × Option Error

/-- An HTTP request issued through the service client. -/
inductive Request where
  | post (url : String) (body : List (String × JSON)) (okCodes : List Nat)
  | patch (url : String) (body : List (String × JSON)) (okCodes : List Nat)
  | delete (url : String)
deriving Repr

/-- Modelled from the spec: the HTTP transport behind `client.Post`, `client.Patch` and
`client.DeleteWithResponse` of `gcorecloud.ServiceClient` (root package): the response body it
stores and the error it returns for a request. -/
structure Transport where
  respond : Request → Option JSON × Option Error

/-- The results `tasks.Result` and `GetResult`, both a `gcorecloud.Result`: the response body
and the error. -/
structure Result where
  Body : Option JSON
  Err : Option Error
deriving Repr

/-- The constant `actionPath`. -/
def actionPath : String := "action"

/-- `func ClusterURL(c *gcorecloud.ServiceClient, clusterID string) string`. -/
def ClusterURL (c : ServiceClient) (clusterID : String) : String :=
  c.ServiceURL [clustersPath, clusterID]

/-- `func ClusterActionURL(c *gcorecloud.ServiceClient, clusterID string) string`. -/
def ClusterActionURL (c : ServiceClient) (clusterID : String) : String :=
  c.ServiceURL [clustersPath, clusterID, actionPath]

/-- `func Delete(client, clusterID, opts DeleteClusterOptsBuilder) (r tasks.Result)`: the result
and the HTTP requests issued, in order. A nil `opts` is `none`. -/
def Delete (client : ServiceClient) (http : Transport) (clusterID : String)
    (opts : Option DeleteClusterOptsBuilder) : Result × List Request :=
  let url := ClusterURL client clusterID
  match opts with
  | some o =>
    match o.ToClusterDeleteQuery with
    | (_, some err) => (⟨none, some err⟩, [])
    | (query, none) =>
      let resp := http.respond (.delete (url ++ query))
      (⟨resp.1, resp.2⟩, [.delete (url ++ query)])
  | none =>
    let resp := http.respond (.delete url)
    (⟨resp.1, resp.2⟩, [.delete url])

/-- `func Rename(client, clusterID, opts RenameClusterOptsBuilder) (r GetResult)`. -/
def Rename (client : ServiceClient) (http : Transport) (clusterID : String)
    (opts : RenameClusterOptsBuilder) : Result × List Request :=
  match opts.ToRenameClusterActionMap with
  | (_, some err) => (⟨none, some err⟩, [])
  | (b, none) =>
    let url := ClusterURL client clusterID
    let resp := http.respond (.patch url b [200])
    (⟨resp.1, resp.2⟩, [.patch url b [200]])

/-- `func Create(client, opts CreateClusterOptsBuilder) (r tasks.Result)`. -/
def Create (client : ServiceClient) (http : Transport) (opts : CreateClusterOptsBuilder) :
    Result × List Request :=
  match opts.ToCreateClusterMap with
  | (_, some err) => (⟨none, some err⟩, [])
  | (b, none) =>
    let url := ClustersURL client
    let resp := http.respond (.post url b [200, 201])
    (⟨resp.1, resp.2⟩, [.post url b [200, 201]])

/-- `func Action(client, clusterID, opts ClusterActionOptsBuilder) (r tasks.Result)`; the nil
request options are the empty list of accepted codes. -/
def Action (client : ServiceClient) (http : Transport) (clusterID : String)
    (opts : ClusterActionOptsBuilder) : Result × List Request :=
  match opts.ToClusterActionMap with
  | (_, some err) => (⟨none, some err⟩, [])
  | (b, none) =>
    let url := ClusterActionURL client clusterID
    let resp := http.respond (.post url b [])
    (⟨resp.1, resp.2⟩, [.post url b []])

/-- A validator for the examples: the options are a name, which is required. -/
def exampleValidate (name : String) : Option Error :=
  if name = "" then some (.collaborator "Name is a required field") else none

/-- A body builder for the examples. -/
def exampleBuildRequestBody (name : String) (_ : String) : List (String × JSON) × Option Error :=
  ([("name", .str name)], none)

/-! ## Properties of the codec of `InterfaceUnion` -/

theorem jsonText_ofString (s : String) : (GoString.ofString s).jsonText = s := by
  cases s with
  | mk cs =>
    simp only [GoString.ofString, GoString.jsonText, List.map_map]
    congr 1
    induction cs with
    | nil => rfl
    | cons c cs ih => simp only [List.map_cons, Function.comp_apply, GoUnit.jsonRune, ih]

theorem ofString_jsonText (s : GoString) (h : s.validUTF8 = true) :
    GoString.ofString s.jsonText = s := by
  cases s with
  | mk us =>
    simp only [GoString.ofString, GoString.jsonText, GoString.mk.injEq]
    simp only [GoString.validUTF8] at h
    induction us with
    | nil => rfl
    | cons u us ih =>
      simp only [List.all_cons, Bool.and_eq_true] at h
      cases u with
      | rune c => simp only [List.map_cons, GoUnit.jsonRune, ih h.2]
      | byte b => simp at h

theorem marshalStringPtr_fits (n : Option GoString) : (marshalStringPtr n).fitsFloat64 = true := by
  cases n <;> rfl

theorem marshalFloatingIPPtr_fits (f : Option FloatingIP) :
    (marshalFloatingIPPtr f).fitsFloat64 = true := by
  cases f <;> rfl

theorem decodeGoString_jsonText (cur s : GoString) (h : s.validUTF8 = true) :
    decodeGoString cur (.str s.jsonText) = .ok s := by
  simp only [decodeGoString, ofString_jsonText s h]

theorem decodeStringPtr_marshal (n : Option GoString) (h : validStringPtr n = true) :
    decodeStringPtr (marshalStringPtr n) = .ok n := by
  cases n with
  | none => rfl
  | some s =>
    simp only [validStringPtr] at h
    simp only [marshalStringPtr, decodeStringPtr, ofString_jsonText s h]

theorem decodeFloatingIPPtr_marshal (cur f : Option FloatingIP) (h : cur = none)
    (hv : validFloatingIPPtr f = true) :
    decodeFloatingIPPtr cur (marshalFloatingIPPtr f) = .ok f := by
  subst h
  cases f with
  | none => rfl
  | some f =>
    simp only [validFloatingIPPtr] at hv
    simp +decide [marshalFloatingIPPtr, decodeFloatingIPPtr, decodeMembers, setFieldFloatingIP,
      decodeGoString_jsonText _ _ hv]

/-- C1, as stated, fails: the valid subnet envelope whose network id is the single byte `0xff`,
which is not valid UTF-8, is encoded with the replacement character U+FFFD in its place, and
decoding the produced bytes yields an envelope with that character, not the envelope itself. -/
theorem roundtrip_fails_on_invalid_utf8 :
    (⟨none, some ⟨⟨[.byte 255]⟩, none, "subnet", "sub", none⟩, none⟩ :
      InterfaceUnion GoString).Valid ∧
    InterfaceUnion.MarshalJSON stringIPFamily
        ⟨none, some ⟨⟨[.byte 255]⟩, none, "subnet", "sub", none⟩, none⟩ =
      .ok (.obj [("network_id", .str ⟨[Char.ofNat 0xFFFD]⟩), ("name", .null),
        ("type", .str "subnet"), ("subnet_id", .str "sub"), ("floating_ip", .null)]) ∧
    InterfaceUnion.UnmarshalJSON stringIPFamily emptyInterfaceUnion
        (some (.obj [("network_id", .str ⟨[Char.ofNat 0xFFFD]⟩), ("name", .null),
          ("type", .str "subnet"), ("subnet_id", .str "sub"), ("floating_ip", .null)])) =
      (⟨none, some ⟨⟨[.rune (Char.ofNat 0xFFFD)]⟩, none, "subnet", "sub", none⟩, none⟩, none) ∧
    (⟨none, some ⟨⟨[.rune (Char.ofNat 0xFFFD)]⟩, none, "subnet", "sub", none⟩, none⟩ :
      InterfaceUnion GoString) ≠
      ⟨none, some ⟨⟨[.byte 255]⟩, none, "subnet", "sub", none⟩, none⟩ :=
  ⟨Or.inr (Or.inl ⟨_, rfl, rfl⟩), rfl, by decide, by decide⟩

/-- C1, amended. Round trip: a valid envelope (exactly one shape populated, its `Type` equal to
its tag) whose string fields are valid UTF-8, and whose `IPFamilyType` value the codec of that
type round-trips, is encoded by `MarshalJSON` without error, and `UnmarshalJSON` of the produced
bytes into an empty envelope succeeds and yields the envelope itself. -/
theorem marshal_unmarshal_roundtrip {F : Type} (c : IPFamilyCodec F) (v : InterfaceUnion F)
    (hv : v.Valid) (hs : v.stringsValidUTF8 = true) (hc : ∀ f ∈ v.ipFamilies, c.RoundTrips f) :
    ∃ bytes, InterfaceUnion.MarshalJSON c v = .ok bytes ∧
      InterfaceUnion.UnmarshalJSON c emptyInterfaceUnion (some bytes) = (v, none) := by
  rcases hv with ⟨e, rfl, ht⟩ | ⟨s, rfl, ht⟩ | ⟨a, rfl, ht⟩
  · obtain ⟨j, hm, hj, hu⟩ := hc e.IPFamily (by simp [InterfaceUnion.ipFamilies])
    refine ⟨_, by simp only [InterfaceUnion.MarshalJSON, marshalExternalInterface, hm]; rfl, ?_⟩
    cases e with
    | mk n t f =>
      simp only at ht hm hu
      subst ht
      simp only [InterfaceUnion.stringsValidUTF8, Bool.and_true, Bool.and_eq_true] at hs
      simp +decide [InterfaceUnion.UnmarshalJSON, InterfaceUnion.ExtractInterfaceType,
        unmarshalMap, fitsFloat64Members, JSON.fitsFloat64, marshalStringPtr_fits,
        marshalFloatingIPPtr_fits, mapIndex, allTypes, JSON.eqString,
        unmarshalStruct, decodeMembers, setFieldExternalInterface,
        decodeStringPtr_marshal _ hs.1, decodeGoString, decodeIPFamily, jsonText_ofString,
        zeroExternalInterface, hu, hj, emptyInterfaceUnion]
  · refine ⟨_, by simp only [InterfaceUnion.MarshalJSON, marshalSubnetInterface]; rfl, ?_⟩
    cases s with
    | mk nid n t sid fip =>
      simp only at ht
      subst ht
      simp only [InterfaceUnion.stringsValidUTF8, Bool.and_true, Bool.true_and,
        Bool.and_eq_true] at hs
      obtain ⟨⟨⟨⟨h1, h2⟩, -⟩, h4⟩, h5⟩ := hs
      simp +decide [InterfaceUnion.UnmarshalJSON, InterfaceUnion.ExtractInterfaceType,
        unmarshalMap, fitsFloat64Members, JSON.fitsFloat64, marshalStringPtr_fits,
        marshalFloatingIPPtr_fits, mapIndex, allTypes, JSON.eqString,
        unmarshalStruct, decodeMembers, setFieldSubnetInterface,
        decodeStringPtr_marshal _ h2, ofString_jsonText _ h1, ofString_jsonText _ h4,
        decodeGoString, jsonText_ofString,
        decodeFloatingIPPtr_marshal _ _ rfl h5, zeroSubnetInterface, emptyInterfaceUnion]
  · obtain ⟨j, hm, hj, hu⟩ := hc a.IPFamily (by simp [InterfaceUnion.ipFamilies])
    refine ⟨_, by simp only [InterfaceUnion.MarshalJSON, marshalAnySubnetInterface, hm]; rfl, ?_⟩
    cases a with
    | mk nid n t f ip fip =>
      simp only at ht hm hu
      subst ht
      simp only [InterfaceUnion.stringsValidUTF8, Bool.and_true, Bool.true_and,
        Bool.and_eq_true] at hs
      obtain ⟨⟨⟨⟨h1, h2⟩, -⟩, h4⟩, h5⟩ := hs
      simp +decide [InterfaceUnion.UnmarshalJSON, InterfaceUnion.ExtractInterfaceType,
        unmarshalMap, fitsFloat64Members, JSON.fitsFloat64, marshalStringPtr_fits,
        marshalFloatingIPPtr_fits, mapIndex, allTypes, JSON.eqString,
        unmarshalStruct, decodeMembers, setFieldAnySubnetInterface,
        decodeStringPtr_marshal _ h2, decodeStringPtr_marshal _ h4,
        ofString_jsonText _ h1, decodeGoString, decodeIPFamily, jsonText_ofString,
        decodeFloatingIPPtr_marshal _ _ rfl h5, zeroAnySubnetInterface, hu, hj,
        emptyInterfaceUnion]

/-- Witness of the amended C1 at an external interface with the codec of a plain string
type. -/
theorem marshal_unmarshal_roundtrip_witness :
    (⟨some ⟨some "eth0", "external", "ipv4"⟩, none, none⟩ : InterfaceUnion GoString).Valid ∧
    (∃ bytes, InterfaceUnion.MarshalJSON stringIPFamily
        ⟨some ⟨some "eth0", "external", "ipv4"⟩, none, none⟩ = .ok bytes ∧
      InterfaceUnion.UnmarshalJSON stringIPFamily emptyInterfaceUnion (some bytes) =
        (⟨some ⟨some "eth0", "external", "ipv4"⟩, none, none⟩, none)) :=
  ⟨Or.inl ⟨_, rfl, rfl⟩,
    marshal_unmarshal_roundtrip stringIPFamily _ (Or.inl ⟨_, rfl, rfl⟩) (by decide) (by
      intro f hf
      simp only [InterfaceUnion.ipFamilies, List.append_nil, List.mem_singleton] at hf
      subst hf
      exact ⟨.str "ipv4", rfl, rfl, rfl⟩)⟩

/-- C2, as stated, fails: an envelope with two populated shapes is not rejected; `MarshalJSON`
returns the encoding of the external shape. -/
theorem marshal_two_shapes_not_rejected :
    InterfaceUnion.MarshalJSON stringIPFamily
      ⟨some ⟨none, "external", "ipv4"⟩, some ⟨"net", none, "subnet", "sub", none⟩, none⟩ =
    .ok (.obj [("name", .null), ("type", .str "external"), ("ip_family", .str "ipv4")]) := rfl

/-- C2, amended. Encoding rejects the envelope with no shape populated: `MarshalJSON` returns
the error `no valid interface type` and no bytes. -/
theorem marshal_rejects_empty {F : Type} (c : IPFamilyCodec F) (i : InterfaceUnion F)
    (h : i.populated = 0) :
    InterfaceUnion.MarshalJSON c i = .error (.errorf "no valid interface type") := by
  obtain ⟨e, s, a⟩ := i
  cases e <;> cases s <;> cases a <;> simp [InterfaceUnion.populated] at h
  rfl

/-- Witness of the amended C2 at the empty envelope. -/
theorem marshal_rejects_empty_witness :
    (emptyInterfaceUnion : InterfaceUnion GoString).populated = 0 ∧
    InterfaceUnion.MarshalJSON stringIPFamily emptyInterfaceUnion =
      .error (.errorf "no valid interface type") :=
  ⟨rfl, marshal_rejects_empty stringIPFamily emptyInterfaceUnion rfl⟩

theorem find_allTypes_none (v : JSON) (h : ∀ t ∈ allTypes, v ≠ .str t) :
    allTypes.find? (fun t => v.eqString t) = none := by
  rw [List.find?_eq_none]
  intro t ht
  cases v with
  | str s =>
    simp only [JSON.eqString, decide_eq_true_eq]
    intro hst
    exact h t ht (by rw [hst])
  | _ => simp [JSON.eqString]

theorem find_allTypes_some (v : JSON) (t : String)
    (h : allTypes.find? (fun t => v.eqString t) = some t) : v = .str t ∧ t ∈ allTypes := by
  have h1 := List.find?_some h
  have h2 := List.mem_of_find?_eq_some h
  refine ⟨?_, h2⟩
  cases v <;> simp [JSON.eqString] at h1
  rw [h1]

/-- A successful `ExtractInterfaceType` read the tag from the `type` member of an object. -/
theorem extractInterfaceType_ok (data : Payload) (t : String)
    (h : InterfaceUnion.ExtractInterfaceType data = .ok t) :
    ∃ kvs, data = some (.obj kvs) ∧ mapIndex kvs "type" = some (.str t) ∧ t ∈ allTypes := by
  unfold InterfaceUnion.ExtractInterfaceType at h
  cases data with
  | none => simp [unmarshalMap] at h
  | some j =>
    cases j with
    | obj kvs =>
      refine ⟨kvs, rfl, ?_⟩
      simp only [unmarshalMap] at h
      cases hfit : fitsFloat64Members kvs with
      | false => simp [hfit] at h
      | true =>
        simp only [hfit, if_true] at h
        cases hm : mapIndex kvs "type" with
        | none => simp [hm] at h
        | some v =>
          simp only [hm] at h
          cases hf : allTypes.find? (fun t => v.eqString t) with
          | none => simp [hf] at h
          | some t' =>
            simp only [hf, Except.ok.injEq] at h
            subst h
            obtain ⟨h1, h2⟩ := find_allTypes_some v t' hf
            exact ⟨by rw [h1], h2⟩
    | null => simp [unmarshalMap, mapIndex] at h
    | bool b => simp [unmarshalMap] at h
    | num n => simp [unmarshalMap] at h
    | str s => simp [unmarshalMap] at h
    | arr xs => simp [unmarshalMap] at h

/-- A failed `ExtractInterfaceType` makes `UnmarshalJSON` fail with the same error and leave
the envelope as it was. -/
theorem unmarshalJSON_of_extract_error {F : Type} (c : IPFamilyCodec F) (i : InterfaceUnion F)
    (data : Payload) (e : Error) (h : InterfaceUnion.ExtractInterfaceType data = .error e) :
    InterfaceUnion.UnmarshalJSON c i data = (i, some e) := by
  simp only [InterfaceUnion.UnmarshalJSON, h]

/-- C3, as stated, fails: for the payload whose `type` is `null` the error text is
`invalid interface type: %!s(<nil>)`, which does not contain the literal `null`. -/
theorem extract_interface_type_null_message :
    InterfaceUnion.ExtractInterfaceType (some (.obj [("type", .null)])) =
      .error (.errorf "invalid interface type: %!s(<nil>)") ∧
    ¬ ("null".data <:+: "invalid interface type: %!s(<nil>)".data) := by
  refine ⟨rfl, ?_⟩
  decide

/-- C3, amended. For every payload that is a JSON object whose `type` member is missing or
holds a value that is not one of the strings `external`, `subnet`, `any_subnet`,
`ExtractInterfaceType` fails and `UnmarshalJSON` fails with the same error, leaving the envelope
as it was. When a number of the payload overflows `float64` the error is the one `encoding/json`
reports. Otherwise, when `type` is missing the error is the fixed text
`interface type not specified, unable to unmarshal interface`, and when `type` holds a string
the error text is `invalid interface type: ` followed by that string. -/
theorem extract_interface_type_rejects (kvs : List (String × JSON))
    (h : ∀ t ∈ allTypes, mapIndex kvs "type" ≠ some (.str t)) :
    (∃ e, InterfaceUnion.ExtractInterfaceType (some (.obj kvs)) = .error e ∧
      ∀ (F : Type) (c : IPFamilyCodec F) (i : InterfaceUnion F),
        InterfaceUnion.UnmarshalJSON c i (some (.obj kvs)) = (i, some e)) ∧
    (fitsFloat64Members kvs = false →
      InterfaceUnion.ExtractInterfaceType (some (.obj kvs)) = .error .json) ∧
    (fitsFloat64Members kvs = true → mapIndex kvs "type" = none →
      InterfaceUnion.ExtractInterfaceType (some (.obj kvs)) =
        .error (.errorf "interface type not specified, unable to unmarshal interface")) ∧
    (fitsFloat64Members kvs = true → ∀ s, mapIndex kvs "type" = some (.str s) →
      InterfaceUnion.ExtractInterfaceType (some (.obj kvs)) =
        .error (.errorf ("invalid interface type: " ++ s))) := by
  have over : fitsFloat64Members kvs = false →
      InterfaceUnion.ExtractInterfaceType (some (.obj kvs)) = .error .json := by
    intro hfit
    simp [InterfaceUnion.ExtractInterfaceType, unmarshalMap, hfit]
  have key : fitsFloat64Members kvs = true → ∀ v, mapIndex kvs "type" = some v →
      InterfaceUnion.ExtractInterfaceType (some (.obj kvs)) =
        .error (.errorf ("invalid interface type: " ++ goFmtS v)) := by
    intro hfit v hv
    have hn := find_allTypes_none v (fun t ht hvt => h t ht (by rw [hv, hvt]))
    simp only [InterfaceUnion.ExtractInterfaceType, unmarshalMap, hfit, if_true, hv, hn]
  have miss : fitsFloat64Members kvs = true → mapIndex kvs "type" = none →
      InterfaceUnion.ExtractInterfaceType (some (.obj kvs)) =
        .error (.errorf "interface type not specified, unable to unmarshal interface") := by
    intro hfit hv
    simp only [InterfaceUnion.ExtractInterfaceType, unmarshalMap, hfit, if_true, hv]
  refine ⟨?_, over, miss, ?_⟩
  · cases hfit : fitsFloat64Members kvs with
    | false =>
      exact ⟨_, over hfit, fun F c i => unmarshalJSON_of_extract_error c i _ _ (over hfit)⟩
    | true =>
      cases hv : mapIndex kvs "type" with
      | none =>
        exact ⟨_, miss hfit hv,
          fun F c i => unmarshalJSON_of_extract_error c i _ _ (miss hfit hv)⟩
      | some v =>
        exact ⟨_, key hfit v hv,
          fun F c i => unmarshalJSON_of_extract_error c i _ _ (key hfit v hv)⟩
  · intro hfit s hs
    rw [key hfit _ hs]
    rfl

/-- Witness of the amended C3 at the object whose `type` is the string `bridge`, alone and next
to a member whose number overflows `float64`. -/
theorem extract_interface_type_rejects_witness :
    InterfaceUnion.ExtractInterfaceType (some (.obj [("type", .str "bridge")])) =
      .error (.errorf "invalid interface type: bridge") ∧
    InterfaceUnion.ExtractInterfaceType
      (some (.obj [("type", .str "bridge"), ("x", .num none)])) = .error .json := by
  have h : ∀ (rest : List (String × JSON)), mapIndex rest "type" = none → ∀ t ∈ allTypes,
      mapIndex (("type", JSON.str "bridge") :: rest) "type" ≠ some (.str t) := by
    intro rest hr t ht
    simp only [allTypes, List.mem_cons, List.mem_singleton, List.not_mem_nil, or_false] at ht
    rcases ht with rfl | rfl | rfl <;> simp +decide [mapIndex, hr]
  exact ⟨(extract_interface_type_rejects _ (h [] rfl)).2.2.2 rfl "bridge" rfl,
    (extract_interface_type_rejects _ (h [("x", .num none)] rfl)).2.1 rfl⟩

/-- What a successful `UnmarshalJSON` did: the tag `t` read from the payload selected one shape,
the payload was decoded into a zero value of that shape, and the result was stored in the field
of that shape only. -/
theorem unmarshalJSON_ok {F : Type} (c : IPFamilyCodec F) (i i' : InterfaceUnion F)
    (data : Payload) (h : InterfaceUnion.UnmarshalJSON c i data = (i', none)) :
    ∃ kvs t, data = some (.obj kvs) ∧ mapIndex kvs "type" = some (.str t) ∧
      ((t = "external" ∧ ∃ e,
          decodeMembers (setFieldExternalInterface c) kvs (zeroExternalInterface c) = .ok e ∧
          i' = { i with ExternalInterface := some e }) ∨
       (t = "subnet" ∧ ∃ s,
          decodeMembers setFieldSubnetInterface kvs zeroSubnetInterface = .ok s ∧
          i' = { i with SubnetInterface := some s }) ∨
       (t = "any_subnet" ∧ ∃ a,
          decodeMembers (setFieldAnySubnetInterface c) kvs (zeroAnySubnetInterface c) = .ok a ∧
          i' = { i with AnySubnetInterface := some a })) := by
  unfold InterfaceUnion.UnmarshalJSON at h
  cases hx : InterfaceUnion.ExtractInterfaceType data with
  | error e => simp [hx] at h
  | ok t =>
    obtain ⟨kvs, rfl, hm, -⟩ := extractInterfaceType_ok data t hx
    refine ⟨kvs, t, rfl, hm, ?_⟩
    simp only [hx, unmarshalStruct] at h
    by_cases h1 : t = "external"
    · left
      refine ⟨h1, ?_⟩
      simp only [h1, if_true] at h
      cases hd : decodeMembers (setFieldExternalInterface c) kvs (zeroExternalInterface c) with
      | error e => simp [hd] at h
      | ok e =>
        simp only [hd, Prod.mk.injEq, and_true] at h
        exact ⟨e, rfl, h.symm⟩
    · by_cases h2 : t = "subnet"
      · right; left
        refine ⟨h2, ?_⟩
        simp only [h2, if_true] at h
        simp +decide only [if_false] at h
        cases hd : decodeMembers setFieldSubnetInterface kvs zeroSubnetInterface with
        | error e => simp [hd] at h
        | ok e =>
          simp only [hd, Prod.mk.injEq, and_true] at h
          exact ⟨e, rfl, h.symm⟩
      · by_cases h3 : t = "any_subnet"
        · right; right
          refine ⟨h3, ?_⟩
          simp only [h3, if_true] at h
          simp +decide only [if_false] at h
          cases hd : decodeMembers (setFieldAnySubnetInterface c) kvs
              (zeroAnySubnetInterface c) with
          | error e => simp [hd] at h
          | ok e =>
            simp only [hd, Prod.mk.injEq, and_true] at h
            exact ⟨e, rfl, h.symm⟩
        · simp [h1, h2, h3] at h

/-- C4. If `UnmarshalJSON` of a payload into an envelope with no shape populated succeeds, then
afterwards exactly one shape is populated, and it is the shape selected by the value of the
`type` member of the payload. -/
theorem unmarshal_populates_exactly_one {F : Type} (c : IPFamilyCodec F)
    (i' : InterfaceUnion F) (data : Payload)
    (h : InterfaceUnion.UnmarshalJSON c emptyInterfaceUnion data = (i', none)) :
    i'.populated = 1 ∧
    ∃ kvs t, data = some (.obj kvs) ∧ mapIndex kvs "type" = some (.str t) ∧
      ((t = "external" ∧ i'.ExternalInterface.isSome = true ∧ i'.SubnetInterface = none ∧
          i'.AnySubnetInterface = none) ∨
       (t = "subnet" ∧ i'.ExternalInterface = none ∧ i'.SubnetInterface.isSome = true ∧
          i'.AnySubnetInterface = none) ∨
       (t = "any_subnet" ∧ i'.ExternalInterface = none ∧ i'.SubnetInterface = none ∧
          i'.AnySubnetInterface.isSome = true)) := by
  obtain ⟨kvs, t, hd, hm, hcase⟩ := unmarshalJSON_ok c _ i' data h
  rcases hcase with ⟨ht, e, -, rfl⟩ | ⟨ht, e, -, rfl⟩ | ⟨ht, e, -, rfl⟩
  · exact ⟨rfl, kvs, t, hd, hm, Or.inl ⟨ht, rfl, rfl, rfl⟩⟩
  · exact ⟨rfl, kvs, t, hd, hm, Or.inr (Or.inl ⟨ht, rfl, rfl, rfl⟩)⟩
  · exact ⟨rfl, kvs, t, hd, hm, Or.inr (Or.inr ⟨ht, rfl, rfl, rfl⟩)⟩

/-- Witness of C4 at a subnet payload. -/
theorem unmarshal_populates_exactly_one_witness :
    InterfaceUnion.UnmarshalJSON stringIPFamily emptyInterfaceUnion
      (some (.obj [("type", .str "subnet"), ("network_id", .str "net"),
        ("subnet_id", .str "sub")])) =
      (⟨none, some ⟨"net", none, "subnet", "sub", none⟩, none⟩, none) ∧
    (⟨none, some ⟨"net", none, "subnet", "sub", none⟩, none⟩ : InterfaceUnion GoString).populated
      = 1 :=
  ⟨by decide, (unmarshal_populates_exactly_one stringIPFamily _
    (some (.obj [("type", .str "subnet"), ("network_id", .str "net"),
      ("subnet_id", .str "sub")])) (by decide)).1⟩

/-- C6. `InterfaceType` returns the `Type` field of the populated shape for an envelope with
exactly one shape populated, and the empty string for an envelope with no shape populated. -/
theorem interfaceType_of_populated {F : Type} :
    (∀ e : ExternalInterface F, InterfaceUnion.InterfaceType ⟨some e, none, none⟩ = e.Type_) ∧
    (∀ s : SubnetInterface,
      InterfaceUnion.InterfaceType (⟨none, some s, none⟩ : InterfaceUnion F) = s.Type_) ∧
    (∀ a : AnySubnetInterface F, InterfaceUnion.InterfaceType ⟨none, none, some a⟩ = a.Type_) ∧
    InterfaceUnion.InterfaceType (⟨none, none, none⟩ : InterfaceUnion F) = "" :=
  ⟨fun _ => rfl, fun _ => rfl, fun _ => rfl, rfl⟩

/-- Decoding the members of an object whose only keys selecting the field `type` are spelled
`type`: the field ends with the string the last `type` member holds. `ty` reads the field. -/
theorem decodeMembers_type {T : Type} (setField : T → String → JSON → Except Error T)
    (ty : T → GoString)
    (hframe : ∀ s k v s1, setField s k v = .ok s1 → fieldMatch k "type" = false → ty s1 = ty s)
    (hset : ∀ s t s1, setField s "type" (.str t) = .ok s1 → ty s1 = GoString.ofString t) :
    ∀ kvs s s', decodeMembers setField kvs s = .ok s' →
      (∀ kv ∈ kvs, fieldMatch kv.1 "type" = true → kv.1 = "type") →
      (mapIndex kvs "type" = none → ty s' = ty s) ∧
      (∀ t, mapIndex kvs "type" = some (.str t) → ty s' = GoString.ofString t) := by
  intro kvs
  induction kvs with
  | nil =>
    intro s s' h _
    simp only [decodeMembers, Except.ok.injEq] at h
    subst h
    exact ⟨fun _ => rfl, fun t ht => by simp [mapIndex] at ht⟩
  | cons kv rest ih =>
    obtain ⟨k, v⟩ := kv
    intro s s' h hk
    simp only [decodeMembers] at h
    cases hs : setField s k v with
    | error e => simp [hs] at h
    | ok s1 =>
      simp only [hs] at h
      obtain ⟨ih1, ih2⟩ := ih s1 s' h (fun kv hkv => hk kv (List.mem_cons_of_mem _ hkv))
      have hk0 := hk (k, v) (List.mem_cons_self _ _)
      simp only at hk0
      simp only [mapIndex]
      cases hr : mapIndex rest "type" with
      | some w =>
        refine ⟨fun hn => by simp at hn, fun t ht => ih2 t ?_⟩
        simpa [hr] using ht
      | none =>
        simp only []
        by_cases hkt : k = "type"
        · subst hkt
          refine ⟨fun hn => by simp at hn, fun t ht => ?_⟩
          simp only [if_true, Option.some.injEq] at ht
          subst ht
          rw [ih1 hr]
          exact hset s t s1 hs
        · have hfm : fieldMatch k "type" = false := by
            cases hb : fieldMatch k "type" with
            | false => rfl
            | true => exact absurd (hk0 hb) hkt
          refine ⟨fun _ => ?_, fun t ht => by simp [hkt] at ht⟩
          rw [ih1 hr]
          exact hframe s k v s1 hs hfm

theorem setFieldExternalInterface_frame {F : Type} (c : IPFamilyCodec F)
    (s : ExternalInterface F) (k : String) (v : JSON) (s1 : ExternalInterface F)
    (h : setFieldExternalInterface c s k v = .ok s1) (hk : fieldMatch k "type" = false) :
    s1.Type_ = s.Type_ := by
  unfold setFieldExternalInterface at h
  simp only [hk, Bool.false_eq_true, if_false] at h
  split_ifs at h <;>
    first
    | (simp only [Except.ok.injEq] at h; subst h; rfl)
    | (split at h <;> first | (simp at h; done) | (simp at h; subst h; rfl))

theorem setFieldSubnetInterface_frame (s : SubnetInterface) (k : String) (v : JSON)
    (s1 : SubnetInterface) (h : setFieldSubnetInterface s k v = .ok s1)
    (hk : fieldMatch k "type" = false) : s1.Type_ = s.Type_ := by
  unfold setFieldSubnetInterface at h
  simp only [hk, Bool.false_eq_true, if_false] at h
  split_ifs at h <;>
    first
    | (simp only [Except.ok.injEq] at h; subst h; rfl)
    | (split at h <;> first | (simp at h; done) | (simp at h; subst h; rfl))

theorem setFieldAnySubnetInterface_frame {F : Type} (c : IPFamilyCodec F)
    (s : AnySubnetInterface F) (k : String) (v : JSON) (s1 : AnySubnetInterface F)
    (h : setFieldAnySubnetInterface c s k v = .ok s1) (hk : fieldMatch k "type" = false) :
    s1.Type_ = s.Type_ := by
  unfold setFieldAnySubnetInterface at h
  simp only [hk, Bool.false_eq_true, if_false] at h
  split_ifs at h <;>
    first
    | (simp only [Except.ok.injEq] at h; subst h; rfl)
    | (split at h <;> first | (simp at h; done) | (simp at h; subst h; rfl))

theorem setFieldExternalInterface_type {F : Type} (c : IPFamilyCodec F)
    (s : ExternalInterface F) (t : String) (s1 : ExternalInterface F)
    (h : setFieldExternalInterface c s "type" (.str t) = .ok s1) :
    s1.Type_ = GoString.ofString t := by
  simp +decide [setFieldExternalInterface, decodeGoString] at h
  subst h
  rfl

theorem setFieldSubnetInterface_type (s : SubnetInterface) (t : String) (s1 : SubnetInterface)
    (h : setFieldSubnetInterface s "type" (.str t) = .ok s1) :
    s1.Type_ = GoString.ofString t := by
  simp +decide [setFieldSubnetInterface, decodeGoString] at h
  subst h
  rfl

theorem setFieldAnySubnetInterface_type {F : Type} (c : IPFamilyCodec F)
    (s : AnySubnetInterface F) (t : String) (s1 : AnySubnetInterface F)
    (h : setFieldAnySubnetInterface c s "type" (.str t) = .ok s1) :
    s1.Type_ = GoString.ofString t := by
  simp +decide [setFieldAnySubnetInterface, decodeGoString] at h
  subst h
  rfl

/-- C5, as stated, fails. The payload with the single member `type` decodes into an external
shape that is re-encoded with the members `name`, `type` and `ip_family`; and a payload that
spells a second key `Type` is re-encoded with the value of that member as its `type`. -/
theorem reencode_changes_wire_shape :
    (InterfaceUnion.UnmarshalJSON stringIPFamily emptyInterfaceUnion
        (some (.obj [("type", .str "external")])) =
      (⟨some ⟨none, "external", ""⟩, none, none⟩, none) ∧
     InterfaceUnion.MarshalJSON stringIPFamily ⟨some ⟨none, "external", ""⟩, none, none⟩ =
      .ok (.obj [("name", .null), ("type", .str "external"), ("ip_family", .str "")])) ∧
    (InterfaceUnion.UnmarshalJSON stringIPFamily emptyInterfaceUnion
        (some (.obj [("type", .str "external"), ("Type", .str "subnet")])) =
      (⟨some ⟨none, "subnet", ""⟩, none, none⟩, none) ∧
     InterfaceUnion.MarshalJSON stringIPFamily ⟨some ⟨none, "subnet", ""⟩, none, none⟩ =
      .ok (.obj [("name", .null), ("type", .str "subnet"), ("ip_family", .str "")])) :=
  ⟨⟨by decide, rfl⟩, ⟨by decide, rfl⟩⟩

/-- Decoding the members of an object none of whose keys selects the field named `n` leaves
that field as it was. `proj` reads the field. -/
theorem decodeMembers_frame {T α : Type} (setField : T → String → JSON → Except Error T)
    (proj : T → α) (n : String)
    (hframe : ∀ s k v s1, setField s k v = .ok s1 → fieldMatch k n = false → proj s1 = proj s) :
    ∀ kvs s s', decodeMembers setField kvs s = .ok s' →
      (∀ kv ∈ kvs, fieldMatch kv.1 n = false) → proj s' = proj s := by
  intro kvs
  induction kvs with
  | nil =>
    intro s s' h _
    simp only [decodeMembers, Except.ok.injEq] at h
    rw [h]
  | cons kv rest ih =>
    obtain ⟨k, v⟩ := kv
    intro s s' h hk
    simp only [decodeMembers] at h
    cases hs : setField s k v with
    | error e => simp [hs] at h
    | ok s1 =>
      simp only [hs] at h
      rw [ih s1 s' h (fun kv hkv => hk kv (List.mem_cons_of_mem _ hkv))]
      exact hframe s k v s1 hs (hk (k, v) (List.mem_cons_self _ _))

theorem setFieldExternalInterface_name {F : Type} (c : IPFamilyCodec F)
    (s : ExternalInterface F) (k : String) (v : JSON) (s1 : ExternalInterface F)
    (h : setFieldExternalInterface c s k v = .ok s1) (hk : fieldMatch k "name" = false) :
    s1.Name = s.Name := by
  unfold setFieldExternalInterface at h
  simp only [hk, Bool.false_eq_true, if_false] at h
  split_ifs at h <;>
    first
    | (simp only [Except.ok.injEq] at h; subst h; rfl)
    | (split at h <;> first | (simp at h; done) | (simp at h; subst h; rfl))

theorem setFieldSubnetInterface_name (s : SubnetInterface) (k : String) (v : JSON)
    (s1 : SubnetInterface) (h : setFieldSubnetInterface s k v = .ok s1)
    (hk : fieldMatch k "name" = false) : s1.Name = s.Name := by
  unfold setFieldSubnetInterface at h
  simp only [hk, Bool.false_eq_true, if_false] at h
  split_ifs at h <;>
    first
    | (simp only [Except.ok.injEq] at h; subst h; rfl)
    | (split at h <;> first | (simp at h; done) | (simp at h; subst h; rfl))

theorem setFieldSubnetInterface_floatingIP (s : SubnetInterface) (k : String) (v : JSON)
    (s1 : SubnetInterface) (h : setFieldSubnetInterface s k v = .ok s1)
    (hk : fieldMatch k "floating_ip" = false) : s1.FloatingIP = s.FloatingIP := by
  unfold setFieldSubnetInterface at h
  simp only [hk, Bool.false_eq_true, if_false] at h
  split_ifs at h <;>
    first
    | (simp only [Except.ok.injEq] at h; subst h; rfl)
    | (split at h <;> first | (simp at h; done) | (simp at h; subst h; rfl))

theorem setFieldAnySubnetInterface_name {F : Type} (c : IPFamilyCodec F)
    (s : AnySubnetInterface F) (k : String) (v : JSON) (s1 : AnySubnetInterface F)
    (h : setFieldAnySubnetInterface c s k v = .ok s1) (hk : fieldMatch k "name" = false) :
    s1.Name = s.Name := by
  unfold setFieldAnySubnetInterface at h
  simp only [hk, Bool.false_eq_true, if_false] at h
  split_ifs at h <;>
    first
    | (simp only [Except.ok.injEq] at h; subst h; rfl)
    | (split at h <;> first | (simp at h; done) | (simp at h; subst h; rfl))

theorem setFieldAnySubnetInterface_ipAddress {F : Type} (c : IPFamilyCodec F)
    (s : AnySubnetInterface F) (k : String) (v : JSON) (s1 : AnySubnetInterface F)
    (h : setFieldAnySubnetInterface c s k v = .ok s1) (hk : fieldMatch k "ip_address" = false) :
    s1.IPAddress = s.IPAddress := by
  unfold setFieldAnySubnetInterface at h
  simp only [hk, Bool.false_eq_true, if_false] at h
  split_ifs at h <;>
    first
    | (simp only [Except.ok.injEq] at h; subst h; rfl)
    | (split at h <;> first | (simp at h; done) | (simp at h; subst h; rfl))

theorem setFieldAnySubnetInterface_floatingIP {F : Type} (c : IPFamilyCodec F)
    (s : AnySubnetInterface F) (k : String) (v : JSON) (s1 : AnySubnetInterface F)
    (h : setFieldAnySubnetInterface c s k v = .ok s1) (hk : fieldMatch k "floating_ip" = false) :
    s1.FloatingIP = s.FloatingIP := by
  unfold setFieldAnySubnetInterface at h
  simp only [hk, Bool.false_eq_true, if_false] at h
  split_ifs at h <;>
    first
    | (simp only [Except.ok.injEq] at h; subst h; rfl)
    | (split at h <;> first | (simp at h; done) | (simp at h; subst h; rfl))

/-- C5, amended. For every payload that `UnmarshalJSON` decodes successfully into an empty
envelope, `MarshalJSON` of the decoded envelope (the codec of `IPFamilyType` being one that
encodes every value) produces a JSON object whose field names are the full field list of the
shape selected by the `type` value of the payload, in declaration order, whatever members the
payload had: an optional field (`name`, `ip_address`, `floating_ip`) that no key of the payload
selects is written as `null`; and the `type` value of the object is the one of the payload when
no key of the payload other than `type` itself selects the field `type` (by case-insensitive
match). -/
theorem reencode_wire_shape {F : Type} (c : IPFamilyCodec F)
    (hc : ∀ f, ∃ j, c.marshal f = some j) (data : Payload) (i' : InterfaceUnion F)
    (h : InterfaceUnion.UnmarshalJSON c emptyInterfaceUnion data = (i', none)) :
    ∃ kvs t okvs, data = some (.obj kvs) ∧ mapIndex kvs "type" = some (.str t) ∧
      InterfaceUnion.MarshalJSON c i' = .ok (.obj okvs) ∧
      (JSON.obj okvs).fieldNames = shapeFields t ∧
      (∀ n ∈ optionalFields t, (∀ kv ∈ kvs, fieldMatch kv.1 n = false) →
        mapIndex okvs n = some .null) ∧
      ((∀ kv ∈ kvs, fieldMatch kv.1 "type" = true → kv.1 = "type") →
        mapIndex okvs "type" = some (.str t)) := by
  obtain ⟨kvs, t, hd, hmi, hcase⟩ := unmarshalJSON_ok c _ i' data h
  rcases hcase with ⟨ht, e, hdec, rfl⟩ | ⟨ht, e, hdec, rfl⟩ | ⟨ht, e, hdec, rfl⟩
  · obtain ⟨ip, hip⟩ := hc e.IPFamily
    refine ⟨kvs, t, [("name", marshalStringPtr e.Name), ("type", .str e.Type_.jsonText),
      ("ip_family", ip)], hd, hmi, ?_, ?_, ?_, ?_⟩
    · simp only [InterfaceUnion.MarshalJSON, emptyInterfaceUnion, marshalExternalInterface, hip]
    · subst ht; rfl
    · intro n hn hno
      subst ht
      simp only [optionalFields, if_true, List.mem_singleton] at hn
      subst hn
      have h1 := decodeMembers_frame (setFieldExternalInterface c) (fun s => s.Name) "name"
        (setFieldExternalInterface_name c) kvs _ e hdec hno
      simp only [zeroExternalInterface] at h1
      simp +decide [mapIndex, h1, marshalStringPtr]
    · intro hk
      have := (decodeMembers_type (setFieldExternalInterface c) (fun s => s.Type_)
        (setFieldExternalInterface_frame c) (setFieldExternalInterface_type c)
        kvs _ e hdec hk).2 t hmi
      simp only at this
      simp +decide [mapIndex, this, jsonText_ofString]
  · refine ⟨kvs, t, [("network_id", .str e.NetworkID.jsonText), ("name", marshalStringPtr e.Name),
      ("type", .str e.Type_.jsonText), ("subnet_id", .str e.SubnetID.jsonText),
      ("floating_ip", marshalFloatingIPPtr e.FloatingIP)], hd, hmi, ?_, ?_, ?_, ?_⟩
    · simp only [InterfaceUnion.MarshalJSON, emptyInterfaceUnion, marshalSubnetInterface]
    · subst ht; rfl
    · intro n hn hno
      subst ht
      simp +decide only [optionalFields, if_true, if_false, List.mem_cons, List.mem_singleton,
        List.not_mem_nil, or_false] at hn
      rcases hn with rfl | rfl
      · have h1 := decodeMembers_frame setFieldSubnetInterface (fun s => s.Name) "name"
          setFieldSubnetInterface_name kvs _ e hdec hno
        simp only [zeroSubnetInterface] at h1
        simp +decide [mapIndex, h1, marshalStringPtr]
      · have h1 := decodeMembers_frame setFieldSubnetInterface (fun s => s.FloatingIP)
          "floating_ip" setFieldSubnetInterface_floatingIP kvs _ e hdec hno
        simp only [zeroSubnetInterface] at h1
        simp +decide [mapIndex, h1, marshalFloatingIPPtr]
    · intro hk
      have := (decodeMembers_type setFieldSubnetInterface (fun s => s.Type_)
        setFieldSubnetInterface_frame setFieldSubnetInterface_type
        kvs _ e hdec hk).2 t hmi
      simp only at this
      simp +decide [mapIndex, this, jsonText_ofString]
  · obtain ⟨ip, hip⟩ := hc e.IPFamily
    refine ⟨kvs, t, [("network_id", .str e.NetworkID.jsonText), ("name", marshalStringPtr e.Name),
      ("type", .str e.Type_.jsonText), ("ip_family", ip),
      ("ip_address", marshalStringPtr e.IPAddress),
      ("floating_ip", marshalFloatingIPPtr e.FloatingIP)], hd, hmi, ?_, ?_, ?_, ?_⟩
    · simp only [InterfaceUnion.MarshalJSON, emptyInterfaceUnion, marshalAnySubnetInterface,
        hip]
    · subst ht; rfl
    · intro n hn hno
      subst ht
      simp +decide only [optionalFields, if_true, if_false, List.mem_cons, List.mem_singleton,
        List.not_mem_nil, or_false] at hn
      rcases hn with rfl | rfl | rfl
      · have h1 := decodeMembers_frame (setFieldAnySubnetInterface c) (fun s => s.Name) "name"
          (setFieldAnySubnetInterface_name c) kvs _ e hdec hno
        simp only [zeroAnySubnetInterface] at h1
        simp +decide [mapIndex, h1, marshalStringPtr]
      · have h1 := decodeMembers_frame (setFieldAnySubnetInterface c) (fun s => s.IPAddress)
          "ip_address" (setFieldAnySubnetInterface_ipAddress c) kvs _ e hdec hno
        simp only [zeroAnySubnetInterface] at h1
        simp +decide [mapIndex, h1, marshalStringPtr]
      · have h1 := decodeMembers_frame (setFieldAnySubnetInterface c) (fun s => s.FloatingIP)
          "floating_ip" (setFieldAnySubnetInterface_floatingIP c) kvs _ e hdec hno
        simp only [zeroAnySubnetInterface] at h1
        simp +decide [mapIndex, h1, marshalFloatingIPPtr]
    · intro hk
      have := (decodeMembers_type (setFieldAnySubnetInterface c) (fun s => s.Type_)
        (setFieldAnySubnetInterface_frame c) (setFieldAnySubnetInterface_type c)
        kvs _ e hdec hk).2 t hmi
      simp only at this
      simp +decide [mapIndex, this, jsonText_ofString]

/-- Witness of the amended C5 at the payload with the single member `type`. -/
theorem reencode_wire_shape_witness :
    ∃ kvs t okvs, some (JSON.obj [("type", .str "external")]) = some (.obj kvs) ∧
      mapIndex kvs "type" = some (.str t) ∧
      InterfaceUnion.MarshalJSON stringIPFamily ⟨some ⟨none, "external", ""⟩, none, none⟩ =
        .ok (.obj okvs) ∧
      (JSON.obj okvs).fieldNames = shapeFields t ∧
      (∀ n ∈ optionalFields t, (∀ kv ∈ kvs, fieldMatch kv.1 n = false) →
        mapIndex okvs n = some .null) ∧
      ((∀ kv ∈ kvs, fieldMatch kv.1 "type" = true → kv.1 = "type") →
        mapIndex okvs "type" = some (.str t)) :=
  reencode_wire_shape stringIPFamily (fun f => ⟨_, rfl⟩)
    (some (.obj [("type", .str "external")]))
    ⟨some ⟨none, "external", ""⟩, none, none⟩ (by decide)

/-! ## Task results -/

/-- For a task whose created-resources mapping decodes to the identifier list `LC` under
`ai_clusters` (to `LL` under `loadbalancers`; an absent key decodes to the empty list),
`ExtractClusterIDFromTask` (`ExtractLoadBalancerIDFromTask`) returns the empty string and an
error when the list is empty, and the first identifier of the list with no error otherwise. The
error of the empty list ends in `empty list` for clusters and in the bad-verb notice
`%!w(<nil>)` for load balancers. -/
theorem extract_id_from_task
    (decodeC : Option (List (String × JSON)) → Except Error ClusterTaskResult)
    (decodeL : Option (List (String × JSON)) → Except Error LoadBalancerTaskResult)
    (task : Task) (LC LL : List String)
    (hC : decodeC task.CreatedResources = .ok ⟨LC⟩)
    (hL : decodeL task.CreatedResources = .ok ⟨LL⟩) :
    (LC = [] → ExtractClusterIDFromTask decodeC task =
      ("", some (.errorf "cannot decode GPU cluster information in task structure: empty list")))
    ∧ (∀ id rest, LC = id :: rest → ExtractClusterIDFromTask decodeC task = (id, none))
    ∧ (LL = [] → ExtractLoadBalancerIDFromTask decodeL task =
      ("", some (.errorf
        "cannot decode loadbalancer information in task structure: %!w(<nil>)")))
    ∧ (∀ id rest, LL = id :: rest → ExtractLoadBalancerIDFromTask decodeL task = (id, none)) := by
  refine ⟨?_, ?_, ?_, ?_⟩
  · rintro rfl
    simp only [ExtractClusterIDFromTask, hC]
  · rintro id rest rfl
    simp only [ExtractClusterIDFromTask, hC]
  · rintro rfl
    simp only [ExtractLoadBalancerIDFromTask, hL]
  · rintro id rest rfl
    simp only [ExtractLoadBalancerIDFromTask, hL]

/-- C7: the code at the failing input. For a task whose created resources hold no load
balancer, `ExtractLoadBalancerIDFromTask` returns the empty string and an error whose text ends
in the bad-verb notice `%!w(<nil>)` of `fmt` rather than in a description of the failure: the
branch of the empty list formats the nil `err` with `%w`. `ExtractClusterIDFromTask` describes
the same failure as `empty list`. -/
theorem extract_loadbalancer_id_empty_list_error :
    ExtractLoadBalancerIDFromTask decodeLoadBalancerTaskResult ⟨some [("loadbalancers", .arr [])]⟩
      = ("", some (.errorf
        "cannot decode loadbalancer information in task structure: %!w(<nil>)")) ∧
    ExtractLoadBalancerIDFromTask decodeLoadBalancerTaskResult ⟨some []⟩
      = ("", some (.errorf
        "cannot decode loadbalancer information in task structure: %!w(<nil>)")) ∧
    ExtractClusterIDFromTask decodeClusterTaskResult ⟨some [("ai_clusters", .arr [])]⟩
      = ("", some (.errorf
        "cannot decode GPU cluster information in task structure: empty list")) ∧
    ExtractLoadBalancerIDFromTask decodeLoadBalancerTaskResult
      ⟨some [("loadbalancers", .arr [.str "lb1"])]⟩ = ("lb1", none) := by
  decide

/-! ## Linked pages -/

theorem decodeElements_append {T : Type} (decode : JSON → Except Error T) :
    ∀ (xs ys : List JSON) (a b : List T), decodeElements decode xs = .ok a →
      decodeElements decode ys = .ok b → decodeElements decode (xs ++ ys) = .ok (a ++ b) := by
  intro xs
  induction xs with
  | nil =>
    intro ys a b ha hb
    simp only [decodeElements, Except.ok.injEq] at ha
    subst ha
    simpa using hb
  | cons x xs ih =>
    intro ys a b ha hb
    simp only [decodeElements] at ha
    cases hx : decode x with
    | error e => simp [hx] at ha
    | ok y =>
      simp only [hx] at ha
      cases hxs : decodeElements decode xs with
      | error e => simp [hxs] at ha
      | ok ys' =>
        simp only [hxs, Except.ok.injEq] at ha
        subst ha
        rw [List.cons_append]
        simp only [decodeElements, hx, ih ys ys' b hxs hb, List.cons_append]

theorem decodeElements_id (xs : List JSON) :
    decodeElements (fun j => Except.ok j) xs = (.ok xs : Except Error (List JSON)) := by
  induction xs with
  | nil => rfl
  | cons x xs ih => simp only [decodeElements, ih]

/-- The typed extraction of a field succeeds exactly when the raw extraction does and every
raw element decodes. -/
theorem extractIntoSlicePtr_ok {T : Type} (decode : JSON → Except Error T) (body : JSON)
    (label : String) (r : List T) (h : ExtractIntoSlicePtr decode body label = .ok r) :
    ∃ rs, ExtractIntoSlicePtr (fun j => Except.ok j) body label = .ok rs ∧
      decodeElements decode rs = .ok r := by
  unfold ExtractIntoSlicePtr at h ⊢
  cases hm : bodyMap body with
  | error e => simp [hm] at h
  | ok m =>
    simp only [hm] at h ⊢
    cases hi : mapIndex m label with
    | none =>
      simp only [hi, Except.ok.injEq] at h ⊢
      exact ⟨[], rfl, by rw [← h]; rfl⟩
    | some v =>
      cases v with
      | null =>
        simp only [hi, Except.ok.injEq] at h ⊢
        exact ⟨[], rfl, by rw [← h]; rfl⟩
      | arr xs =>
        simp only [hi] at h ⊢
        exact ⟨xs, decodeElements_id xs, h⟩
      | bool b => simp [hi] at h
      | num n => simp [hi] at h
      | str s => simp [hi] at h
      | obj kvs => simp [hi] at h

/-- The traversal over linked pages whose `results` are lists ends within as many fetches as
there are pages and collects the resources of the pages in order. -/
theorem allPagesFrom_linked (client : ServiceClient) :
    ∀ (bodies : List JSON) (raws : List (List JSON)) (url : String) (fuel : Nat)
      (acc : List JSON),
      LinkedPages client url bodies →
      List.Forall₂ (fun b rs => pageResources b = .ok rs) bodies raws →
      bodies.length ≤ fuel →
      allPagesFrom (List_ client) fuel url acc = some (.ok (acc ++ raws.flatten)) := by
  intro bodies
  induction bodies with
  | nil => intro raws url fuel acc h; exact absurd h (by simp [LinkedPages])
  | cons b rest ih =>
    intro raws url fuel acc h hr hf
    cases hr with
    | cons hb hrest2 =>
      rename_i rs raws'
      cases fuel with
      | zero => simp at hf
      | succ fuel =>
        cases rest with
        | nil =>
          obtain ⟨hg, hn⟩ := h
          cases hrest2
          simp [allPagesFrom, List_, hg, hn, hb]
        | cons b' rest' =>
          obtain ⟨hg, hn2, hn1, hrest⟩ := h
          have hlen : (b' :: rest').length ≤ fuel := by
            simp only [List.length_cons] at hf ⊢
            omega
          have := ih raws' _ fuel (acc ++ rs) hrest hrest2 hlen
          have hpair : (ClusterPage.mk b).NextPageURL =
              ((ClusterPage.mk b).NextPageURL.1, none) := by
            rw [← hn2]
          simp only [allPagesFrom, List_, hg, hb]
          rw [hpair]
          simp only [hn1, if_false]
          simp only [List_] at this
          rw [this]
          simp
theorem extractClusters_ok {C : Type} (decode : JSON → Except Error C) (b : JSON) (r : List C)
    (h : ExtractClusters decode ⟨b⟩ = (r, none)) :
    ∃ rs, pageResources b = .ok rs ∧ decodeElements decode rs = .ok r := by
  unfold ExtractClusters ExtractClustersInto at h
  cases hx : ExtractIntoSlicePtr decode b "results" with
  | error e => simp [hx] at h
  | ok r' =>
    simp only [hx, Prod.mk.injEq, and_true] at h
    subst h
    exact extractIntoSlicePtr_ok decode b "results" r' hx

theorem extractClusters_merged {C : Type} (decode : JSON → Except Error C) (all : List JSON) :
    ExtractClusters decode ⟨.obj [("results", .arr all)]⟩ =
      (match decodeElements decode all with
        | .error err => ([], some err)
        | .ok s => (s, none)) := by
  simp +decide only [ExtractClusters, ExtractClustersInto, ExtractIntoSlicePtr, bodyMap,
    mapIndex, if_true]

/-- Pages that each extract to a list of resources have `results` lists whose concatenation
decodes to the concatenation of those lists. -/
theorem forall₂_extractClusters {C : Type} (decode : JSON → Except Error C) :
    ∀ (bodies : List JSON) (perPage : List (List C)),
      List.Forall₂ (fun b r => ExtractClusters decode ⟨b⟩ = (r, none)) bodies perPage →
      ∃ raws, List.Forall₂ (fun b rs => pageResources b = .ok rs) bodies raws ∧
        decodeElements decode raws.flatten = .ok perPage.flatten := by
  intro bodies perPage h
  induction h with
  | nil => exact ⟨[], List.Forall₂.nil, rfl⟩
  | cons hb _ ih =>
    obtain ⟨raws, h1, h2⟩ := ih
    obtain ⟨rs, h3, h4⟩ := extractClusters_ok decode _ _ hb
    refine ⟨rs :: raws, List.Forall₂.cons h3 h1, ?_⟩
    simp only [List.flatten_cons]
    exact decodeElements_append decode _ _ _ _ h4 h2

/-- C8. Order-preserving concatenation: over a chain of linked pages (every page but the last
yields the URL of the following page, the last one yields none) whose pages extract to the
resource lists `perPage`, `ListAll` ends within as many fetches as there are pages and returns,
with no error, the concatenation of the lists in the order of the pages, every list in its own
order. -/
theorem listAll_concatenates {C : Type} (decodeCluster : JSON → Except Error C)
    (client : ServiceClient) (bodies : List JSON) (perPage : List (List C)) (fuel : Nat)
    (hl : LinkedPages client (ClustersURL client) bodies)
    (hr : List.Forall₂ (fun b r => ExtractClusters decodeCluster ⟨b⟩ = (r, none)) bodies perPage)
    (hf : bodies.length ≤ fuel) :
    ListAll decodeCluster client fuel = some (perPage.flatten, none) := by
  obtain ⟨raws, h1, h2⟩ := forall₂_extractClusters decodeCluster bodies perPage hr
  have h3 := allPagesFrom_linked client bodies raws (ClustersURL client) fuel [] hl h1 hf
  have h4 : (List_ client).initialURL = ClustersURL client := rfl
  simp only [ListAll, Pager.AllPages, h4, h3, List.nil_append]
  have h5 : (List_ client).createPage (.obj [("results", .arr raws.flatten)]) =
      ⟨.obj [("results", .arr raws.flatten)]⟩ := rfl
  rw [h5, extractClusters_merged, h2]

/-- Witness of C8: the example of the spec, two linked pages with resources `a` and `b`. -/
theorem listAll_concatenates_witness :
    ListAll exampleDecode exampleClient 2 = some (["a", "b"], none) :=
  listAll_concatenates exampleDecode exampleClient
    [.obj [("results", .arr [.obj [("id", .str "a")]]),
        ("links", .arr [.obj [("href", .str "/x?page=2"), ("rel", .str "next")]])],
      .obj [("results", .arr [.obj [("id", .str "b")]]), ("links", .arr [])]]
    [["a"], ["b"]] 2
    ⟨rfl, by decide, by decide, rfl, by decide⟩
    (List.Forall₂.cons (by decide) (List.Forall₂.cons (by decide) List.Forall₂.nil))
    (by decide)

theorem allPagesFrom_fails (client : ServiceClient) :
    ∀ (k : Nat) (url : String) (fuel : Nat) (acc : List JSON) (err : Error),
      FailsAtPage client url k err → k < fuel →
      allPagesFrom (List_ client) fuel url acc = some (.error err) := by
  intro k
  induction k with
  | zero =>
    intro url fuel acc err h hf
    cases fuel with
    | zero => simp at hf
    | succ fuel =>
      rcases h with hg | ⟨b, hg, hp | ⟨⟨rs, hp⟩, hn⟩⟩
      · simp only [allPagesFrom, List_, hg]
      · simp only [allPagesFrom, List_, hg, hp]
      · have hpair : (ClusterPage.mk b).NextPageURL =
            ((ClusterPage.mk b).NextPageURL.1, some err) := by
          rw [← hn]
        simp only [allPagesFrom, List_, hg, hp]
        rw [hpair]
  | succ k ih =>
    intro url fuel acc err h hf
    cases fuel with
    | zero => simp at hf
    | succ fuel =>
      obtain ⟨b, hg, ⟨rs, hp⟩, hn2, hn1, hrest⟩ := h
      have hpair : (ClusterPage.mk b).NextPageURL =
          ((ClusterPage.mk b).NextPageURL.1, none) := by
        rw [← hn2]
      have := ih _ fuel (acc ++ rs) err hrest (by omega)
      simp only [allPagesFrom, List_, hg, hp]
      rw [hpair]
      simp only [hn1, if_false]
      simp only [List_] at this
      rw [this]

/-- C9. No partial results on failure: when the traversal fails with `err` at some page (the
fetch of the page fails, or the page is fetched and its `results` or its links do not decode),
or when every page is fetched and the decoding of the collected resources into clusters fails
with `err`, `ListAll` returns `err` together with a nil cluster list. -/
theorem listAll_fails_as_a_whole {C : Type} (decodeCluster : JSON → Except Error C)
    (client : ServiceClient) (fuel : Nat) (err : Error)
    (h : (∃ k, k < fuel ∧ FailsAtPage client (ClustersURL client) k err) ∨
      (∃ bodies raws, bodies.length ≤ fuel ∧ LinkedPages client (ClustersURL client) bodies ∧
        List.Forall₂ (fun b rs => pageResources b = .ok rs) bodies raws ∧
        decodeElements decodeCluster raws.flatten = .error err)) :
    ListAll decodeCluster client fuel = some (([] : List C), some err) := by
  have h4 : (List_ client).initialURL = ClustersURL client := rfl
  rcases h with ⟨k, hk, hfail⟩ | ⟨bodies, raws, hf, hl, hr, hd⟩
  · have h3 := allPagesFrom_fails client k (ClustersURL client) fuel [] err hfail hk
    simp only [ListAll, Pager.AllPages, h4, h3]
  · have h3 := allPagesFrom_linked client bodies raws (ClustersURL client) fuel [] hl hr hf
    simp only [ListAll, Pager.AllPages, h4, h3, List.nil_append]
    have h5 : (List_ client).createPage (.obj [("results", .arr raws.flatten)]) =
        ⟨.obj [("results", .arr raws.flatten)]⟩ := rfl
    rw [h5, extractClusters_merged, hd]

/-- Witness of C9: the fetch of the second of two pages fails. -/
theorem listAll_fails_as_a_whole_witness :
    ListAll exampleDecode failingClient 2 =
      some (([] : List String), some (.collaborator "connection reset")) :=
  listAll_fails_as_a_whole exampleDecode failingClient 2 (.collaborator "connection reset")
    (Or.inl ⟨1, by decide, ⟨_, rfl, ⟨_, rfl⟩, by decide, by decide, Or.inl rfl⟩⟩)

theorem decodeMembers_linksBody_skip (kvs : List (String × JSON))
    (h : ∀ kv ∈ kvs, fieldMatch kv.1 "links" = false) (rest : List (String × JSON))
    (s : LinksBody) :
    decodeMembers setFieldLinksBody (kvs ++ rest) s = decodeMembers setFieldLinksBody rest s := by
  induction kvs with
  | nil => rfl
  | cons kv kvs ih =>
    obtain ⟨k, v⟩ := kv
    have hk := h (k, v) (List.mem_cons_self _ _)
    simp only at hk
    rw [List.cons_append]
    simp only [decodeMembers, setFieldLinksBody, hk, Bool.false_eq_true, if_false]
    exact ih (fun kv hkv => h kv (List.mem_cons_of_mem _ hkv))

theorem extractInto_absent (kvs : List (String × JSON))
    (h : ∀ kv ∈ kvs, fieldMatch kv.1 "links" = false) (s : LinksBody) :
    ExtractInto (.obj kvs) s = .ok s := by
  have := decodeMembers_linksBody_skip kvs h [] s
  simp only [List.append_nil] at this
  simp only [ExtractInto, unmarshalStruct, this, decodeMembers]

theorem extractInto_links (pre post : List (String × JSON)) (k : String) (v : JSON)
    (hk : fieldMatch k "links" = true)
    (hpre : ∀ kv ∈ pre, fieldMatch kv.1 "links" = false)
    (hpost : ∀ kv ∈ post, fieldMatch kv.1 "links" = false) :
    ExtractInto (.obj (pre ++ (k, v) :: post)) ⟨[]⟩ =
      (match decodeLinks v with
        | .ok links => .ok ⟨links⟩
        | .error e => .error e) := by
  simp only [ExtractInto, unmarshalStruct]
  rw [decodeMembers_linksBody_skip pre hpre]
  simp only [decodeMembers, setFieldLinksBody, hk, if_true]
  cases decodeLinks v with
  | error e => rfl
  | ok links =>
    simp only []
    have := decodeMembers_linksBody_skip post hpost [] ⟨links⟩
    simp only [List.append_nil] at this
    rw [this]
    rfl

theorem extractNextURL_none (links : List Link) (url : String)
    (h : ∀ l ∈ links, l.Rel ≠ "next") :
    links.foldl (fun url l => if l.Rel = "next" then l.Href else url) url = url := by
  induction links generalizing url with
  | nil => rfl
  | cons l links ih =>
    have hl := h l (List.mem_cons_self _ _)
    simp only [List.foldl_cons, hl, if_false]
    exact ih url (fun x hx => h x (List.mem_cons_of_mem _ hx))

theorem extractNextURL_unique (before after : List Link) (l : Link) (hl : l.Rel = "next")
    (hb : ∀ x ∈ before, x.Rel ≠ "next") (ha : ∀ x ∈ after, x.Rel ≠ "next") :
    ExtractNextURL (before ++ l :: after) = (l.Href, none) := by
  simp only [ExtractNextURL, List.foldl_append, List.foldl_cons, hl, if_true,
    extractNextURL_none before "" hb, extractNextURL_none after l.Href ha]

/-- C10, as stated, fails: for a page whose `links` field is malformed (here a string),
`NextPageURL` returns the decode error, not an absent URL without error. -/
theorem nextPageURL_malformed_links :
    (ClusterPage.mk (.obj [("links", .str "oops")])).NextPageURL = ("", some .json) ∧
    (LoadBalancerPage.mk (.obj [("links", .str "oops")])).NextPageURL = ("", some .json) ∧
    (RegionPage.mk (.obj [("links", .str "oops")])).NextPageURL = ("", some .json) := by
  decide

/-- C10, amended. For a page of type `ClusterPage`, `LoadBalancerPage` or `RegionPage` whose
body is a JSON object: when no key of the body selects the field `links`, `NextPageURL` returns
no URL and no error; when exactly one member of the body has a key that selects `links` (`k`,
matched without regard to case), `NextPageURL` returns no URL and no error when that member is
an empty list or decodes to links none of which has relation `next`, the target of the link
with relation `next` when it decodes to links exactly one of which has that relation, and no
URL together with the decode error when the member is malformed. -/
theorem nextPageURL_of_links (pre post : List (String × JSON)) (k : String) (v : JSON)
    (hk : fieldMatch k "links" = true)
    (hpre : ∀ kv ∈ pre, fieldMatch kv.1 "links" = false)
    (hpost : ∀ kv ∈ post, fieldMatch kv.1 "links" = false) :
    (∀ r ∈ [(ClusterPage.mk (.obj (pre ++ post))).NextPageURL,
        (LoadBalancerPage.mk (.obj (pre ++ post))).NextPageURL,
        (RegionPage.mk (.obj (pre ++ post))).NextPageURL], r = ("", none)) ∧
    (∀ r ∈ [(ClusterPage.mk (.obj (pre ++ (k, v) :: post))).NextPageURL,
        (LoadBalancerPage.mk (.obj (pre ++ (k, v) :: post))).NextPageURL,
        (RegionPage.mk (.obj (pre ++ (k, v) :: post))).NextPageURL],
      (v = .arr [] → r = ("", none)) ∧
      (∀ links, decodeLinks v = .ok links → (∀ l ∈ links, l.Rel ≠ "next") → r = ("", none)) ∧
      (∀ before l after, decodeLinks v = .ok (before ++ l :: after) → l.Rel = "next" →
        (∀ x ∈ before, x.Rel ≠ "next") → (∀ x ∈ after, x.Rel ≠ "next") →
        r = (l.Href, none)) ∧
      (∀ e, decodeLinks v = .error e → r = ("", some e))) := by
  have habs : ∀ kv ∈ pre ++ post, fieldMatch kv.1 "links" = false := by
    intro kv hkv
    rcases List.mem_append.mp hkv with h | h
    · exact hpre kv h
    · exact hpost kv h
  have h1 : (ClusterPage.mk (.obj (pre ++ post))).NextPageURL = ("", none) := by
    simp only [ClusterPage.NextPageURL, extractInto_absent _ habs]
    rfl
  have h2 := extractInto_links pre post k v hk hpre hpost
  have key : ∀ r, r = (ClusterPage.mk (.obj (pre ++ (k, v) :: post))).NextPageURL →
      (v = .arr [] → r = ("", none)) ∧
      (∀ links, decodeLinks v = .ok links → (∀ l ∈ links, l.Rel ≠ "next") → r = ("", none)) ∧
      (∀ before l after, decodeLinks v = .ok (before ++ l :: after) → l.Rel = "next" →
        (∀ x ∈ before, x.Rel ≠ "next") → (∀ x ∈ after, x.Rel ≠ "next") →
        r = (l.Href, none)) ∧
      (∀ e, decodeLinks v = .error e → r = ("", some e)) := by
    intro r hr
    subst hr
    simp only [ClusterPage.NextPageURL, h2]
    refine ⟨?_, ?_, ?_, ?_⟩
    · rintro rfl
      rfl
    · intro links hd hno
      simp only [hd, ExtractNextURL, extractNextURL_none links "" hno]
    · intro before l after hd hl hb ha
      simp only [hd, extractNextURL_unique before after l hl hb ha]
    · intro e hd
      simp only [hd]
  refine ⟨?_, ?_⟩
  · intro r hr
    simp only [List.mem_cons, List.mem_singleton, List.not_mem_nil, or_false] at hr
    rcases hr with rfl | rfl | rfl
    · exact h1
    · exact h1
    · exact h1
  · intro r hr
    simp only [List.mem_cons, List.mem_singleton, List.not_mem_nil, or_false] at hr
    rcases hr with rfl | rfl | rfl
    · exact key _ rfl
    · exact key _ rfl
    · exact key _ rfl

/-- Witness of the amended C10: the first page of the example of the spec, with its links
under the key `Links`. -/
theorem nextPageURL_of_links_witness :
    (ClusterPage.mk (.obj ([("results", .arr [.obj [("id", .str "a")]])] ++
      ("Links", .arr [.obj [("href", .str "/x?page=2"), ("rel", .str "next")]]) :: []))).NextPageURL
      = ("/x?page=2", none) :=
  ((nextPageURL_of_links [("results", .arr [.obj [("id", .str "a")]])] [] "Links"
    (.arr [.obj [("href", .str "/x?page=2"), ("rel", .str "next")]])
    (by decide) (by decide) (by decide)).2 _ (List.mem_cons_self _ _)).2.2.1
      [] ⟨"/x?page=2", "next"⟩ [] rfl rfl (by simp) (by simp)

/-! ## `IsEmpty` -/

theorem extractIntoSlicePtr_no_results {T : Type} (decode : JSON → Except Error T)
    (kvs : List (String × JSON))
    (h : mapIndex kvs "results" = none ∨ mapIndex kvs "results" = some (.arr [])) :
    ExtractIntoSlicePtr decode (.obj kvs) "results" = .ok [] := by
  rcases h with h | h <;> simp only [ExtractIntoSlicePtr, bodyMap, h, decodeElements]

/-- C11. `IsEmpty` returns true exactly when the number of resources extracted from the page
under `results` is zero, and returns the error of the extraction; for a page whose body has an
absent or empty `results` array the extraction returns the empty sequence, `IsEmpty` returns
true, and neither returns an error. -/
theorem isEmpty_iff_no_resources {C L R : Type} (decodeCluster : JSON → Except Error C)
    (decodeLoadBalancer : JSON → Except Error L) (decodeRegion : JSON → Except Error R)
    (body : JSON) :
    ((((ClusterPage.mk body).IsEmpty decodeCluster).1 = true ↔
        (ExtractClusters decodeCluster ⟨body⟩).1.length = 0) ∧
      ((ClusterPage.mk body).IsEmpty decodeCluster).2 = (ExtractClusters decodeCluster ⟨body⟩).2) ∧
    ((((LoadBalancerPage.mk body).IsEmpty decodeLoadBalancer).1 = true ↔
        (ExtractLoadBalancers decodeLoadBalancer ⟨body⟩).1.length = 0) ∧
      ((LoadBalancerPage.mk body).IsEmpty decodeLoadBalancer).2 =
        (ExtractLoadBalancers decodeLoadBalancer ⟨body⟩).2) ∧
    ((((RegionPage.mk body).IsEmpty decodeRegion).1 = true ↔
        (ExtractRegions decodeRegion ⟨body⟩).1.length = 0) ∧
      ((RegionPage.mk body).IsEmpty decodeRegion).2 = (ExtractRegions decodeRegion ⟨body⟩).2) ∧
    (∀ kvs, body = .obj kvs →
      (mapIndex kvs "results" = none ∨ mapIndex kvs "results" = some (.arr [])) →
      (ExtractClusters decodeCluster ⟨body⟩ = ([], none) ∧
        (ClusterPage.mk body).IsEmpty decodeCluster = (true, none)) ∧
      (ExtractLoadBalancers decodeLoadBalancer ⟨body⟩ = ([], none) ∧
        (LoadBalancerPage.mk body).IsEmpty decodeLoadBalancer = (true, none)) ∧
      (ExtractRegions decodeRegion ⟨body⟩ = ([], none) ∧
        (RegionPage.mk body).IsEmpty decodeRegion = (true, none))) := by
  refine ⟨⟨?_, rfl⟩, ⟨?_, rfl⟩, ⟨?_, rfl⟩, ?_⟩
  · simp [ClusterPage.IsEmpty]
  · simp [LoadBalancerPage.IsEmpty]
  · simp [RegionPage.IsEmpty]
  · rintro kvs rfl h
    have hC := extractIntoSlicePtr_no_results decodeCluster kvs h
    have hL := extractIntoSlicePtr_no_results decodeLoadBalancer kvs h
    have hR := extractIntoSlicePtr_no_results decodeRegion kvs h
    refine ⟨⟨?_, ?_⟩, ⟨?_, ?_⟩, ⟨?_, ?_⟩⟩
    · simp only [ExtractClusters, ExtractClustersInto, hC]
    · simp only [ClusterPage.IsEmpty, ExtractClusters, ExtractClustersInto, hC]
      rfl
    · simp only [ExtractLoadBalancers, ExtractLoadBalancersInto, hL]
    · simp only [LoadBalancerPage.IsEmpty, ExtractLoadBalancers, ExtractLoadBalancersInto, hL]
      rfl
    · simp only [ExtractRegions, ExtractRegionsInto, hR]
    · simp only [RegionPage.IsEmpty, ExtractRegions, ExtractRegionsInto, hR]
      rfl

/-- Witness of C11: the page whose body has an empty `results` array and no links. -/
theorem isEmpty_iff_no_resources_witness :
    ExtractClusters exampleDecode ⟨.obj [("results", .arr []), ("links", .arr [])]⟩ = ([], none) ∧
    (ClusterPage.mk (.obj [("results", .arr []), ("links", .arr [])])).IsEmpty exampleDecode =
      (true, none) :=
  ((isEmpty_iff_no_resources exampleDecode exampleDecode exampleDecode
    (.obj [("results", .arr []), ("links", .arr [])])).2.2.2 _ rfl (Or.inr rfl)).1

/-! ## Validation before the request -/

/-- C12. Validation precedes the network: when the options builder of `Create`, `Rename`,
`Action` or `Delete` (with non-nil options) returns the error `err`, the operation issues no
HTTP request and returns a result with no body whose `Err` is `err`; and each builder
(`ToCreateClusterMap`, `ToRenameClusterActionMap`, `ToClusterActionMap`,
`ToClusterDeleteQuery`) returns the error of `Validate`, with a nil body or an empty query,
whatever the body or query builder would have produced. -/
theorem validation_precedes_request (client : ServiceClient) (http : Transport)
    (clusterID : String) (err : Error) :
    (∀ (opts : CreateClusterOptsBuilder), opts.ToCreateClusterMap.2 = some err →
      Create client http opts = (⟨none, some err⟩, [])) ∧
    (∀ (opts : RenameClusterOptsBuilder), opts.ToRenameClusterActionMap.2 = some err →
      Rename client http clusterID opts = (⟨none, some err⟩, [])) ∧
    (∀ (opts : ClusterActionOptsBuilder), opts.ToClusterActionMap.2 = some err →
      Action client http clusterID opts = (⟨none, some err⟩, [])) ∧
    (∀ (opts : DeleteClusterOptsBuilder), opts.ToClusterDeleteQuery.2 = some err →
      Delete client http clusterID (some opts) = (⟨none, some err⟩, [])) ∧
    (∀ (O : Type) (validateStruct : O → Option Error)
        (buildRequestBody : O → String → List (String × JSON) × Option Error)
        (buildQueryString : O → String × Option Error) (opts : O),
      validateStruct opts = some err →
        CreateClusterOpts.ToCreateClusterMap validateStruct buildRequestBody opts =
          ([], some err) ∧
        RenameClusterOpts.ToRenameClusterActionMap validateStruct buildRequestBody opts =
          ([], some err) ∧
        ClusterActionOpts.ToClusterActionMap validateStruct buildRequestBody opts =
          ([], some err) ∧
        DeleteClusterOpts.ToClusterDeleteQuery validateStruct buildQueryString opts =
          ("", some err)) := by
  refine ⟨?_, ?_, ?_, ?_, ?_⟩
  · rintro ⟨b, e⟩ h
    simp only at h
    subst h
    rfl
  · rintro ⟨b, e⟩ h
    simp only at h
    subst h
    rfl
  · rintro ⟨b, e⟩ h
    simp only at h
    subst h
    rfl
  · rintro ⟨b, e⟩ h
    simp only at h
    subst h
    rfl
  · intro O validateStruct buildRequestBody buildQueryString opts h
    refine ⟨?_, ?_, ?_, ?_⟩
    · simp only [CreateClusterOpts.ToCreateClusterMap, CreateClusterOpts.Validate, h]
    · simp only [RenameClusterOpts.ToRenameClusterActionMap, RenameClusterOpts.Validate, h]
    · simp only [ClusterActionOpts.ToClusterActionMap, ClusterActionOpts.Validate, h]
    · simp only [DeleteClusterOpts.ToClusterDeleteQuery, DeleteClusterOpts.Validate, h]

/-- Witness of C12: renaming a cluster to the empty name, which the validator rejects. -/
theorem validation_precedes_request_witness :
    RenameClusterOpts.ToRenameClusterActionMap exampleValidate exampleBuildRequestBody "" =
      ([], some (.collaborator "Name is a required field")) ∧
    Rename exampleClient ⟨fun _ => (some (.obj []), none)⟩ "c1"
        ⟨RenameClusterOpts.ToRenameClusterActionMap exampleValidate exampleBuildRequestBody ""⟩ =
      (⟨none, some (.collaborator "Name is a required field")⟩, []) :=
  have h := validation_precedes_request exampleClient ⟨fun _ => (some (.obj []), none)⟩ "c1"
    (.collaborator "Name is a required field")
  ⟨(h.2.2.2.2 String exampleValidate exampleBuildRequestBody (fun _ => ("", none)) "" rfl).2.1,
    h.2.1 ⟨RenameClusterOpts.ToRenameClusterActionMap exampleValidate exampleBuildRequestBody ""⟩
      rfl⟩

/-! ## Frame of `UnmarshalJSON`, and the shape `MarshalJSON` and `InterfaceType` select -/

/-- A failed `UnmarshalJSON` leaves the envelope as it was. -/
theorem unmarshalJSON_error {F : Type} (c : IPFamilyCodec F) (i i' : InterfaceUnion F)
    (data : Payload) (err : Error)
    (h : InterfaceUnion.UnmarshalJSON c i data = (i', some err)) : i' = i := by
  unfold InterfaceUnion.UnmarshalJSON at h
  split at h
  · simp only [Prod.mk.injEq] at h
    exact h.1.symm
  · split_ifs at h
    · split at h
      · simp only [Prod.mk.injEq] at h
        exact h.1.symm
      · simp at h
    · split at h
      · simp only [Prod.mk.injEq] at h
        exact h.1.symm
      · simp at h
    · split at h
      · simp only [Prod.mk.injEq] at h
        exact h.1.symm
      · simp at h
    · simp only [Prod.mk.injEq] at h
      exact h.1.symm

/-- C13. Decode atomicity and frame: if `UnmarshalJSON` fails, the envelope is left unchanged;
if it succeeds, the field of the shape named by the `type` value of the payload is populated
and the other two shape fields keep the values they had, so that the number of populated shapes
grows by one when that shape was not populated before. -/
theorem unmarshal_frame {F : Type} (c : IPFamilyCodec F) (E E' : InterfaceUnion F)
    (data : Payload) (res : Option Error)
    (h : InterfaceUnion.UnmarshalJSON c E data = (E', res)) :
    (res ≠ none → E' = E) ∧
    (res = none → ∃ kvs t, data = some (.obj kvs) ∧ mapIndex kvs "type" = some (.str t) ∧
      ((t = "external" ∧ E'.ExternalInterface.isSome = true ∧
          E'.SubnetInterface = E.SubnetInterface ∧
          E'.AnySubnetInterface = E.AnySubnetInterface ∧
          E'.populated = if E.ExternalInterface.isSome then E.populated else E.populated + 1) ∨
       (t = "subnet" ∧ E'.SubnetInterface.isSome = true ∧
          E'.ExternalInterface = E.ExternalInterface ∧
          E'.AnySubnetInterface = E.AnySubnetInterface ∧
          E'.populated = if E.SubnetInterface.isSome then E.populated else E.populated + 1) ∨
       (t = "any_subnet" ∧ E'.AnySubnetInterface.isSome = true ∧
          E'.ExternalInterface = E.ExternalInterface ∧
          E'.SubnetInterface = E.SubnetInterface ∧
          E'.populated =
            if E.AnySubnetInterface.isSome then E.populated else E.populated + 1))) := by
  constructor
  · intro hres
    cases res with
    | none => exact absurd rfl hres
    | some err => exact unmarshalJSON_error c E E' data err h
  · rintro rfl
    obtain ⟨kvs, t, hd, hm, hcase⟩ := unmarshalJSON_ok c E E' data h
    refine ⟨kvs, t, hd, hm, ?_⟩
    obtain ⟨x, y, z⟩ := E
    rcases hcase with ⟨ht, e, -, rfl⟩ | ⟨ht, e, -, rfl⟩ | ⟨ht, e, -, rfl⟩
    · refine Or.inl ⟨ht, rfl, rfl, rfl, ?_⟩
      cases x <;> first | (simp [InterfaceUnion.populated]; done) | (simp [InterfaceUnion.populated]; omega)
    · refine Or.inr (Or.inl ⟨ht, rfl, rfl, rfl, ?_⟩)
      cases y <;> first | (simp [InterfaceUnion.populated]; done) | (simp [InterfaceUnion.populated]; omega)
    · refine Or.inr (Or.inr ⟨ht, rfl, rfl, rfl, ?_⟩)
      cases z <;> simp [InterfaceUnion.populated]

/-- Witness of C13: an external payload decoded into an envelope holding a subnet shape leaves
both shapes populated. -/
theorem unmarshal_frame_witness :
    InterfaceUnion.UnmarshalJSON stringIPFamily
        ⟨none, some ⟨"net", none, "subnet", "sub", none⟩, none⟩
        (some (.obj [("type", .str "external"), ("ip_family", .str "ipv4")])) =
      (⟨some ⟨none, "external", "ipv4"⟩, some ⟨"net", none, "subnet", "sub", none⟩, none⟩,
        none) ∧
    (⟨some ⟨none, "external", "ipv4"⟩, some ⟨"net", none, "subnet", "sub", none⟩, none⟩ :
      InterfaceUnion GoString).populated = 2 ∧
    ∃ kvs t, some (JSON.obj [("type", .str "external"), ("ip_family", .str "ipv4")]) =
        some (.obj kvs) ∧ mapIndex kvs "type" = some (.str t) :=
  have h := (unmarshal_frame stringIPFamily
    ⟨none, some ⟨"net", none, "subnet", "sub", none⟩, none⟩
    ⟨some ⟨none, "external", "ipv4"⟩, some ⟨"net", none, "subnet", "sub", none⟩, none⟩
    (some (.obj [("type", .str "external"), ("ip_family", .str "ipv4")])) none
    (by decide)).2 rfl
  ⟨by decide, rfl, h.elim fun kvs h1 => h1.elim fun t h2 => ⟨kvs, t, h2.1, h2.2.1⟩⟩

/-- C14, as stated, fails: for the envelope whose external shape has the `Type` field made of
the single byte `0xff`, which is not valid UTF-8, the `type` value of the encoded object is the
replacement character U+FFFD, while `InterfaceType` returns the byte itself. -/
theorem encoded_type_differs_on_invalid_utf8 :
    InterfaceUnion.MarshalJSON stringIPFamily ⟨some ⟨none, ⟨[.byte 255]⟩, ""⟩, none, none⟩ =
      .ok (.obj [("name", .null), ("type", .str ⟨[Char.ofNat 0xFFFD]⟩), ("ip_family", .str "")]) ∧
    InterfaceUnion.InterfaceType
      (⟨some ⟨none, ⟨[.byte 255]⟩, ""⟩, none, none⟩ : InterfaceUnion GoString) = ⟨[.byte 255]⟩ ∧
    GoString.ofString ⟨[Char.ofNat 0xFFFD]⟩ ≠ ⟨[.byte 255]⟩ :=
  ⟨rfl, rfl, by decide⟩

/-- C14, amended. For an envelope with at least one shape populated, `MarshalJSON` returns the
serialization of the first populated shape in the order `ExternalInterface`,
`SubnetInterface`, `AnySubnetInterface`, whatever the later shape fields hold, and
`InterfaceType` returns the `Type` field of that same shape; the `type` value of the encoded
object is `InterfaceType` of the envelope with its invalid UTF-8 coerced to the replacement
character, and so equals `InterfaceType` of the envelope whenever that is valid UTF-8. -/
theorem marshal_and_interfaceType_agree {F : Type} (c : IPFamilyCodec F) :
    (∀ (e : ExternalInterface F) (s : Option SubnetInterface) (a : Option (AnySubnetInterface F)),
      InterfaceUnion.MarshalJSON c ⟨some e, s, a⟩ = marshalExternalInterface c e ∧
      InterfaceUnion.InterfaceType ⟨some e, s, a⟩ = e.Type_) ∧
    (∀ (s : SubnetInterface) (a : Option (AnySubnetInterface F)),
      InterfaceUnion.MarshalJSON c ⟨none, some s, a⟩ = marshalSubnetInterface s ∧
      InterfaceUnion.InterfaceType (⟨none, some s, a⟩ : InterfaceUnion F) = s.Type_) ∧
    (∀ (a : AnySubnetInterface F),
      InterfaceUnion.MarshalJSON c ⟨none, none, some a⟩ = marshalAnySubnetInterface c a ∧
      InterfaceUnion.InterfaceType ⟨none, none, some a⟩ = a.Type_) ∧
    (∀ (i : InterfaceUnion F) (out : JSON), InterfaceUnion.MarshalJSON c i = .ok out →
      ∃ okvs, out = .obj okvs ∧ mapIndex okvs "type" = some (.str i.InterfaceType.jsonText) ∧
        (i.InterfaceType.validUTF8 = true →
          ∃ t, mapIndex okvs "type" = some (.str t) ∧ GoString.ofString t = i.InterfaceType)) := by
  refine ⟨fun e s a => ⟨rfl, rfl⟩, fun s a => ⟨rfl, rfl⟩, fun a => ⟨rfl, rfl⟩, ?_⟩
  have fin : ∀ (i : InterfaceUnion F) (okvs : List (String × JSON)),
      mapIndex okvs "type" = some (.str i.InterfaceType.jsonText) →
      mapIndex okvs "type" = some (.str i.InterfaceType.jsonText) ∧
        (i.InterfaceType.validUTF8 = true →
          ∃ t, mapIndex okvs "type" = some (.str t) ∧ GoString.ofString t = i.InterfaceType) :=
    fun i okvs h => ⟨h, fun hv => ⟨_, h, ofString_jsonText _ hv⟩⟩
  rintro ⟨x, y, z⟩ out h
  cases x with
  | some e =>
    simp only [InterfaceUnion.MarshalJSON, marshalExternalInterface] at h
    cases hip : c.marshal e.IPFamily with
    | none => simp [hip] at h
    | some ip =>
      simp only [hip, Except.ok.injEq] at h
      subst h
      exact ⟨_, rfl, fin _ _ (by simp +decide [mapIndex, InterfaceUnion.InterfaceType])⟩
  | none =>
    cases y with
    | some s =>
      simp only [InterfaceUnion.MarshalJSON, marshalSubnetInterface, Except.ok.injEq] at h
      subst h
      exact ⟨_, rfl, fin _ _ (by simp +decide [mapIndex, InterfaceUnion.InterfaceType])⟩
    | none =>
      cases z with
      | some a =>
        simp only [InterfaceUnion.MarshalJSON, marshalAnySubnetInterface] at h
        cases hip : c.marshal a.IPFamily with
        | none => simp [hip] at h
        | some ip =>
          simp only [hip, Except.ok.injEq] at h
          subst h
          exact ⟨_, rfl, fin _ _ (by simp +decide [mapIndex, InterfaceUnion.InterfaceType])⟩
      | none => simp [InterfaceUnion.MarshalJSON] at h

/-- Witness of the amended C14: an envelope with the subnet and the any-subnet shapes
populated. -/
theorem marshal_and_interfaceType_agree_witness :
    ∃ okvs, JSON.obj [("network_id", .str "net"), ("name", .null), ("type", .str "subnet"),
        ("subnet_id", .str "sub"), ("floating_ip", .null)] = .obj okvs ∧
      mapIndex okvs "type" = some (.str (InterfaceUnion.InterfaceType
        (⟨none, some ⟨"net", none, "subnet", "sub", none⟩,
          some ⟨"net", none, "any_subnet", "ipv4", none, none⟩⟩ :
            InterfaceUnion GoString)).jsonText) ∧
      ((InterfaceUnion.InterfaceType
        (⟨none, some ⟨"net", none, "subnet", "sub", none⟩,
          some ⟨"net", none, "any_subnet", "ipv4", none, none⟩⟩ :
            InterfaceUnion GoString)).validUTF8 = true →
        ∃ t, mapIndex okvs "type" = some (.str t) ∧ GoString.ofString t =
          InterfaceUnion.InterfaceType
            (⟨none, some ⟨"net", none, "subnet", "sub", none⟩,
              some ⟨"net", none, "any_subnet", "ipv4", none, none⟩⟩ :
                InterfaceUnion GoString)) :=
  (marshal_and_interfaceType_agree stringIPFamily).2.2.2
    ⟨none, some ⟨"net", none, "subnet", "sub", none⟩,
      some ⟨"net", none, "any_subnet", "ipv4", none, none⟩⟩ _ rfl

end Gcore
